import Mathlib

/-!
# Flask-Project front end: a shallow embedding of `script.js` and `Frontend/admin.js`

The two scripts are browser code.  Their observable state is the local storage,
the location of the window, the requests handed to `fetch`, the calls made to
the small UI helpers, and (on the admin panel) the globals `allUsers` and
`allCampaigns` with the table they are rendered into.  Every function below is
the state-passing translation of the source function of the same name: it takes
the state before the call and returns the state after it together with the
value returned or the value thrown.

Conventions of the embedding

* An `async` function is run to completion: its `await`s are taken in program
  order and no other handler is interleaved.  The one place where the script
  runs `async` functions side by side is `Promise.all` in `loadAdminData`; the
  order in which they resume is a parameter there.
* The platform (the backend behind `fetch`, `JSON.stringify`,
  `String.prototype.toLowerCase`) is a parameter, `Platform`; what only
  `admin.js` uses of it (`toLocaleString`, `Math.random`) is `AdminPlatform`.
* Numbers are IEEE 754 doubles, modelled by their rational values; division
  and multiplication round to the nearest double (`toDouble`).
* Strings are sequences of Unicode code points; `jsLength` is the `.length` of
  the script (UTF-16 code units).
* `console.log` and `console.error` have no effect on the modelled state and
  are left out.
* Every element the scripts look up by id exists on the page.
* A value that is written into the page is converted to a string, which
  throws a `TypeError` on some objects (`JsVal.converts`).
-/

namespace FlaskFrontend

/-! ## JavaScript values -/

/-- The values a JSON body can parse to, and `undefined`.  Numbers are modelled
by their rational value. -/
inductive JsVal where
  | undefined
  | null
  | bool (b : Bool)
  | num (x : ℚ)
  | str (s : String)
  | arr (xs : List JsVal)
  | obj (fields : List (String × JsVal))

/-- What is thrown: an `Error` created by the script with `new Error(message)`,
or an exception raised by the platform (`TypeError`, `SyntaxError`, a rejected
`fetch`). -/
inductive Thrown where
  | error (message : String)
  | native (name : String)
deriving DecidableEq, Repr

namespace JsVal

/-- ToBoolean. -/
def truthy : JsVal → Bool
  | undefined => false
  | null => false
  | bool b => b
  | num x => x != 0
  | str s => s != ""
  | arr _ => true
  | obj _ => true

/-- The operator `a || b`. -/
def or (a b : JsVal) : JsVal :=
  if a.truthy then a else b

/-- The property read `v.key` for a key that is not a built-in property: a
`TypeError` on `null` and `undefined`, the field of an object when it has one,
`undefined` otherwise. -/
def getProp (v : JsVal) (key : String) : Except Thrown JsVal :=
  match v with
  | undefined => .error (.native "TypeError")
  | null => .error (.native "TypeError")
  | obj fields => .ok ((fields.lookup key).getD undefined)
  | _ => .ok undefined

/-- The comparison `v === s` of a value with a string. -/
def strictEqStr (v : JsVal) (s : String) : Bool :=
  match v with
  | str t => t == s
  | _ => false

/-- Whether a value is `null` or `undefined`, the values a property read
throws on. -/
def isNullish : JsVal → Bool
  | undefined => true
  | null => true
  | _ => false

mutual

/-- Whether the conversion of a value to a string or to a number returns.  On
an object the conversion calls `toString` and `valueOf`: an object parsed from
JSON inherits both, unless it has a field of that name, which is never a
function.  The inherited `toString` returns a string; the inherited `valueOf`
returns the object itself, which is no primitive value.  So the conversion
throws a `TypeError` exactly on the objects with a field `toString`.  An array
converts its elements and joins them. -/
def converts : JsVal → Bool
  | obj fields => !(fields.lookup "toString").isSome
  | arr xs => convertsAll xs
  | _ => true

/-- Whether the conversion returns on every element of an array. -/
def convertsAll : List JsVal → Bool
  | [] => true
  | x :: xs => x.converts && convertsAll xs

end

/-- The conversion of a value put into a template literal or assigned to a
text of the page: a `TypeError` when it does not return. -/
def toText (v : JsVal) : Except Thrown Unit :=
  if v.converts then .ok () else .error (.native "TypeError")

end JsVal

/-- The `.length` of a string: its number of UTF-16 code units. -/
def jsLength (s : String) : Nat :=
  (s.data.map (fun c => if c.toNat < 65536 then 1 else 2)).sum

/-! ## Local storage -/

/-- The entries of `localStorage`, in insertion order. -/
abbrev Storage := List (String × String)

namespace Storage

/-- The call `localStorage.getItem(key)`; `none` is `null`. -/
def getItem (s : Storage) (key : String) : Option String :=
  s.lookup key

/-- The call `localStorage.removeItem(key)`. -/
def removeItem (s : Storage) (key : String) : Storage :=
  s.filter (fun e => e.1 != key)

/-- The call `localStorage.setItem(key, value)`. -/
def setItem (s : Storage) (key value : String) : Storage :=
  if (s.lookup key).isSome then
    s.map (fun e => if e.1 == key then (key, value) else e)
  else
    s ++ [(key, value)]

end Storage

/-- Truthiness of the result of `getItem`: a string that is not empty. -/
def itemTruthy : Option String → Bool
  | some t => t != ""
  | none => false

/-- The template literal `${item}` for the result of `getItem`. -/
def itemText : Option String → String
  | some t => t
  | none => "null"

/-! ## Requests and responses -/

/-- The second argument of `fetch`.  `headers` are the own properties of the
headers object, in insertion order. -/
structure Options where
  method : Option String
  headers : List (String × String)
  body : Option String
deriving DecidableEq, Repr

/-- A call of `fetch(url, options)`. -/
structure Request where
  url : String
  options : Options
deriving DecidableEq, Repr

/-- The assignment `headers[name] = value`. -/
def setHeader (headers : List (String × String)) (name value : String) :
    List (String × String) :=
  if (headers.lookup name).isSome then
    headers.map (fun e => if e.1 == name then (name, value) else e)
  else
    headers ++ [(name, value)]

/-- A response: its `status` and what `response.json()` settles to. -/
structure Response where
  status : Nat
  json : Except Thrown JsVal

/-- The property `response.ok`. -/
def Response.ok (r : Response) : Bool :=
  decide (200 ≤ r.status) && decide (r.status ≤ 299)

/-- What the promise returned by `fetch` settles to. -/
inductive FetchOutcome where
  | rejected (e : Thrown)
  | resolved (r : Response)

/-- The platform the scripts run on. -/
structure Platform where
  /-- The outcome of `fetch` for a request. -/
  fetch : Request → FetchOutcome
  /-- The function `JSON.stringify` on values it serialises to a string. -/
  stringify : JsVal → String
  /-- The method `String.prototype.toLowerCase`. -/
  toLowerCase : String → String

/-! ## `script.js` -/

namespace Script

/-- A call to one of the UI helpers of `script.js`, or a timer that assigns
the location when it fires. -/
inductive UiCall where
  | toggleLoading (elementId : String) (shown : Bool)
  | showError (elementId : String) (message : JsVal)
  | showSuccess (elementId : String) (message : JsVal)
  | redirectAfter (ms : Nat) (href : String)

/-- The state a handler of `script.js` runs in. -/
structure Browser where
  localStorage : Storage
  /-- The last value assigned to `window.location.href`. -/
  href : String
  /-- The calls of `fetch`, oldest first. -/
  requests : List Request
  /-- The calls of the UI helpers, oldest first. -/
  ui : List UiCall

/-- The constant `API_BASE_URL` of `script.js`. -/
def API_BASE_URL : String := "http://127.0.0.1:5000/api"

/-- Lines 33 to 52 of `apiCall`: the `try` block, whose `catch` rethrows. -/
def apiCallFetch (pf : Platform) (endpoint : String) (options : Options) (b : Browser) :
    Browser × Except Thrown JsVal :=
  let request : Request := { url := API_BASE_URL ++ endpoint, options := options }
  let b : Browser := { b with requests := b.requests ++ [request] }
  match pf.fetch request with
  | .rejected e => (b, .error e)
  | .resolved response =>
    if response.status = 401 then
      let b : Browser := { b with localStorage := b.localStorage.removeItem "access_token" }
      let b : Browser := { b with localStorage := b.localStorage.removeItem "user_id" }
      let b : Browser := { b with localStorage := b.localStorage.removeItem "user_name" }
      let b : Browser := { b with localStorage := b.localStorage.removeItem "user_email" }
      let b : Browser := { b with href := "/login" }
      (b, .error (.error "Authentication failed"))
    else
      match response.json with
      | .error e => (b, .error e)
      | .ok result => (b, .ok result)

/-- The function `apiCall(endpoint, method, data, requiresAuth)`. -/
def apiCall (pf : Platform) (endpoint : String) (method : String) (data : JsVal)
    (requiresAuth : Bool) (b : Browser) : Browser × Except Thrown JsVal :=
  let options : Options :=
    { method := some method, headers := [("Content-Type", "application/json")], body := none }
  let options : Options :=
    if data.truthy then { options with body := some (pf.stringify data) } else options
  if requiresAuth then
    let token := b.localStorage.getItem "access_token"
    if itemTruthy token then
      let options : Options :=
        { options with
          headers := setHeader options.headers "Authorization" ("Bearer " ++ itemText token) }
      apiCallFetch pf endpoint options b
    else
      ({ b with href := "/login" }, .error (.error "No authentication token found"))
  else
    apiCallFetch pf endpoint options b

/-- The function `loginUser(email, password)`. -/
def loginUser (pf : Platform) (email password : String) (b : Browser) :
    Browser × Except Thrown JsVal :=
  apiCall pf "/login" "POST" (.obj [("email", .str email), ("password", .str password)]) false b

/-- The function `signupUser(name, email, password)`. -/
def signupUser (pf : Platform) (name email password : String) (b : Browser) :
    Browser × Except Thrown JsVal :=
  apiCall pf "/register" "POST"
    (.obj [("username", .str name), ("email", .str email), ("password", .str password)]) false b

/-- The function `checkLogin()`. -/
def checkLogin (b : Browser) : Browser × Bool :=
  let token := b.localStorage.getItem "access_token"
  let userId := b.localStorage.getItem "user_id"
  if !itemTruthy token || !itemTruthy userId then
    ({ b with href := "/login" }, false)
  else
    (b, true)

/-- The function `logout()`: the failure of `apiCall` is caught and dropped. -/
def logout (pf : Platform) (b : Browser) : Browser × Except Thrown Unit :=
  let b : Browser :=
    match apiCall pf "/logout" "POST" .null true b with
    | (b, .ok _) => b
    | (b, .error _) => b
  let b : Browser := { b with localStorage := b.localStorage.removeItem "access_token" }
  let b : Browser := { b with localStorage := b.localStorage.removeItem "user_id" }
  let b : Browser := { b with localStorage := b.localStorage.removeItem "user_name" }
  let b : Browser := { b with localStorage := b.localStorage.removeItem "user_email" }
  let b : Browser := { b with href := "/" }
  (b, .ok ())

/-- The helper `toggleLoading(elementId, show)`. -/
def toggleLoading (elementId : String) (shown : Bool) (b : Browser) : Browser :=
  { b with ui := b.ui ++ [.toggleLoading elementId shown] }

/-- The helper `showError(elementId, message)`, for a message whose conversion
to a string returns. -/
def showError (elementId : String) (message : JsVal) (b : Browser) : Browser :=
  { b with ui := b.ui ++ [.showError elementId message] }

/-- The helper `showSuccess(elementId, message)`, for a message whose
conversion to a string returns. -/
def showSuccess (elementId : String) (message : JsVal) (b : Browser) : Browser :=
  { b with ui := b.ui ++ [.showSuccess elementId message] }

/-- Lines 282 to 289 of the submit handler of the signup form: what is done
with the response of `signupUser`. -/
def signupResponse (response : JsVal) (b : Browser) : Browser × Except Thrown Unit :=
  match response.getProp "status" with
  | .error e => (b, .error e)
  | .ok status =>
    if status.strictEqStr "success" then
      let b := showSuccess "successMessage"
        (.str "Account created successfully! Redirecting to login...") b
      ({ b with ui := b.ui ++ [.redirectAfter 2000 "/login"] }, .ok ())
    else
      match response.getProp "message" with
      | .error e => (b, .error e)
      | .ok message =>
        match (message.or (.str "Signup failed")).toText with
        | .error e => (b, .error e)
        | .ok _ => (showError "errorMessage" (message.or (.str "Signup failed")) b, .ok ())

/-- The submit handler registered by `initSignupPage()`, run with the values of
the four inputs of the form. -/
def signupSubmit (pf : Platform) (name email password confirmPassword : String)
    (b : Browser) : Browser :=
  if password ≠ confirmPassword then
    showError "errorMessage" (.str "Passwords do not match") b
  else if jsLength password < 6 then
    showError "errorMessage" (.str "Password must be at least 6 characters long") b
  else
    let b := toggleLoading "loading" true b
    let tried : Browser × Except Thrown Unit :=
      match signupUser pf name email password b with
      | (b, .error e) => (b, .error e)
      | (b, .ok response) => signupResponse response b
    let b : Browser :=
      match tried with
      | (b, .ok _) => b
      | (b, .error _) =>
        showError "errorMessage"
          (.str "Signup failed. Please check if the server is running.") b
    toggleLoading "loading" false b

/-! ### `formatNumber` and `formatCurrency`

The regular expression `/\B(?=(\d{3})+(?!\d))/g` matches the empty string
only, so the replacement inserts a comma at every position at which it matches. -/

/-- The class `\w`. -/
def isWordChar (c : Char) : Bool :=
  c.isAlphanum || c == '_'

/-- The negative lookahead `(?!\d)` on the rest of the input. -/
def noDigitAhead : List Char → Bool
  | [] => true
  | c :: _ => !c.isDigit

/-- The body `(\d{3})+(?!\d)` of the lookahead on the rest of the input: three
digits, then either further groups or the end of the digits. -/
def groupsAhead : List Char → Bool
  | c1 :: c2 :: c3 :: rest =>
    c1.isDigit && c2.isDigit && c3.isDigit && (groupsAhead rest || noDigitAhead rest)
  | _ => false

/-- The assertion `\B` between the character before the position, if any, and
the rest of the input. -/
def nonBoundary (prev : Option Char) (rest : List Char) : Bool :=
  (match prev with
    | some c => isWordChar c
    | none => false) ==
  (match rest with
    | c :: _ => isWordChar c
    | [] => false)

/-- Whether `/\B(?=(\d{3})+(?!\d))/` matches at the position between `prev` and
`rest`. -/
def matchesAt (prev : Option Char) (rest : List Char) : Bool :=
  nonBoundary prev rest && groupsAhead rest

/-- The call `.replace(/\B(?=(\d{3})+(?!\d))/g, ",")` from the position between
`prev` and the rest of the input on. -/
def insertCommas (prev : Option Char) : List Char → List Char
  | [] => if matchesAt prev [] then [','] else []
  | c :: rest =>
    (if matchesAt prev (c :: rest) then [','] else []) ++ c :: insertCommas (some c) rest

/-- The call `s.replace(/\B(?=(\d{3})+(?!\d))/g, ",")`. -/
def replaceThousands (s : String) : String :=
  ⟨insertCommas none s.data⟩

/-- The function `formatNumber(num)`; `toStr` is the method `toString` of the
argument. -/
def formatNumber {ν : Type} (toStr : ν → String) (num : ν) : String :=
  replaceThousands (toStr num)

/-- The function `formatCurrency(num)`; `toFixed` is the method `toFixed` of
the argument.  Its result is a string, whose `toString` is the identity. -/
def formatCurrency {ν : Type} (toFixed : ν → Nat → String) (num : ν) : String :=
  "$" ++ formatNumber id (toFixed num 2)

end Script

/-! ## `Frontend/admin.js` -/

namespace Admin

/-- The constant `API_BASE_URL` of `admin.js`. -/
def API_BASE_URL : String := "/api"

/-- A user record as the backend and `generateMockUsers` give it. -/
structure User where
  id : Nat
  username : String
  email : String
  role : String
  created_at : String
  campaigns_count : Nat
deriving DecidableEq, Repr

/-- The object of a user record. -/
def User.toJs (u : User) : JsVal :=
  .obj [("id", .num u.id), ("username", .str u.username), ("email", .str u.email),
    ("role", .str u.role), ("created_at", .str u.created_at),
    ("campaigns_count", .num u.campaigns_count)]

/-- The state the functions of `admin.js` run in. -/
structure AdminPage where
  localStorage : Storage
  /-- The last value assigned to `window.location.href`. -/
  href : String
  /-- The calls of `fetch`, oldest first. -/
  requests : List Request
  /-- The global `allUsers`. -/
  allUsers : JsVal
  /-- The global `allCampaigns`. -/
  allCampaigns : JsVal
  /-- The value of the input `userSearch`. -/
  userSearch : String
  /-- The value of the select `userRoleFilter`. -/
  userRoleFilter : String
  /-- The rows of `usersTableBody`, each given by the user it renders. -/
  usersTableBody : List JsVal
  /-- The text of `totalUsers`. -/
  totalUsers : Nat
  /-- The options of `campaignUserFilter` after the option `all`, each given by
  the value it is made from. -/
  campaignUserFilter : List JsVal
  /-- The arguments of the calls of `displayUsers`, oldest first. -/
  displayed : List JsVal

/-- The records of `generateMockUsers()`. -/
def mockUsers : List User :=
  [ { id := 1, username := "john_doe", email := "john@example.com", role := "user",
      created_at := "2024-01-15", campaigns_count := 5 },
    { id := 2, username := "jane_smith", email := "jane@example.com", role := "user",
      created_at := "2024-02-20", campaigns_count := 3 },
    { id := 3, username := "admin_user", email := "admin@example.com", role := "admin",
      created_at := "2024-01-01", campaigns_count := 0 },
    { id := 4, username := "demo_user", email := "demo@example.com", role := "user",
      created_at := "2024-03-10", campaigns_count := 8 } ]

/-- The function `generateMockUsers()`. -/
def generateMockUsers : JsVal :=
  .arr (mockUsers.map User.toJs)

/-- The template literal of a row of `displayUsers`: it reads the properties
of `user` and converts each to a string, `formatDate` converting its argument
to make a date of it. -/
def userRowText (user : JsVal) : Except Thrown Unit := do
  let id ← user.getProp "id"
  id.toText
  let username ← user.getProp "username"
  username.toText
  let email ← user.getProp "email"
  email.toText
  let role ← user.getProp "role"
  role.toText
  let createdAt ← user.getProp "created_at"
  createdAt.toText
  let campaignsCount ← user.getProp "campaigns_count"
  (campaignsCount.or (.num 0)).toText

/-- The loop `users.forEach(user => ...)` of `displayUsers`: the row is
appended once its text is built. -/
def appendUserRows : List JsVal → AdminPage → AdminPage × Except Thrown Unit
  | [], p => (p, .ok ())
  | user :: rest, p =>
    match userRowText user with
    | .error e => (p, .error e)
    | .ok _ => appendUserRows rest { p with usersTableBody := p.usersTableBody ++ [user] }

/-- The function `displayUsers(users)`.  A value that is not an array has no
method `forEach`. -/
def displayUsers (users : JsVal) (p : AdminPage) : AdminPage × Except Thrown Unit :=
  let p : AdminPage := { p with displayed := p.displayed ++ [users] }
  let p : AdminPage := { p with usersTableBody := [] }
  match users with
  | .arr xs =>
    match appendUserRows xs p with
    | (p, .error e) => (p, .error e)
    | (p, .ok _) => ({ p with totalUsers := xs.length }, .ok ())
  | _ => (p, .error (.native "TypeError"))

/-- The call `allCampaigns.map(c => c.user)` on the elements of an array. -/
def campaignUsers : List JsVal → Except Thrown (List JsVal)
  | [] => .ok []
  | c :: rest =>
    match c.getProp "user" with
    | .error e => .error e
    | .ok user =>
      match campaignUsers rest with
      | .error e => .error e
      | .ok users => .ok (user :: users)

/-- The equality of the elements of a `Set` on values parsed from JSON: two
primitive values are the same when they are equal, and no two parsed arrays
or objects are the same. -/
def sameValueZero : JsVal → JsVal → Bool
  | .undefined, .undefined => true
  | .null, .null => true
  | .bool a, .bool b => a == b
  | .num x, .num y => x == y
  | .str s, .str t => s == t
  | _, _ => false

/-- The expression `[...new Set(xs)]`, given the values already in the set:
the first occurrence of every value, in order. -/
def uniqueValues (seen : List JsVal) : List JsVal → List JsVal
  | [] => []
  | x :: rest =>
    if seen.any (sameValueZero x) then uniqueValues seen rest
    else x :: uniqueValues (seen ++ [x]) rest

/-- The loop `uniqueUsers.forEach(user => ...)` of `updateUserFilter`: the
value is converted to a string for `option.value` and the option is appended. -/
def appendUserOptions : List JsVal → AdminPage → AdminPage × Except Thrown Unit
  | [], p => (p, .ok ())
  | user :: rest, p =>
    match user.toText with
    | .error e => (p, .error e)
    | .ok _ =>
      appendUserOptions rest { p with campaignUserFilter := p.campaignUserFilter ++ [user] }

/-- The function `updateUserFilter()`. -/
def updateUserFilter (p : AdminPage) : AdminPage × Except Thrown Unit :=
  match p.allCampaigns with
  | .arr campaigns =>
    match campaignUsers campaigns with
    | .error e => (p, .error e)
    | .ok users => appendUserOptions (uniqueValues [] users) { p with campaignUserFilter := [] }
  | _ => (p, .error (.native "TypeError"))

/-- The two statements `displayUsers(allUsers); updateUserFilter();` that
follow every assignment of `allUsers` in `loadUsers`. -/
def showAllUsers (p : AdminPage) : AdminPage × Except Thrown Unit :=
  match displayUsers p.allUsers p with
  | (p, .error e) => (p, .error e)
  | (p, .ok _) => updateUserFilter p

/-- The request `loadUsers` makes: no method, a single header. -/
def usersRequest (p : AdminPage) : Request :=
  { url := API_BASE_URL ++ "/admin/users",
    options :=
      { method := none,
        headers :=
          [("Authorization", "Bearer " ++ itemText (p.localStorage.getItem "access_token"))],
        body := none } }

/-- The `try` block of `loadUsers` from `await fetch(...)` on, the call of
`fetch` made with `request`. -/
def loadUsersResume (pf : Platform) (request : Request) (p : AdminPage) :
    AdminPage × Except Thrown Unit :=
  match pf.fetch request with
  | .rejected e => (p, .error e)
  | .resolved response =>
    if response.ok then
      match response.json with
      | .error e => (p, .error e)
      | .ok data =>
        match data.getProp "users" with
        | .error e => (p, .error e)
        | .ok users =>
          let p : AdminPage := { p with allUsers := users.or generateMockUsers }
          showAllUsers p
    else
      let p : AdminPage := { p with allUsers := generateMockUsers }
      showAllUsers p

/-- The `try` block of `loadUsers`. -/
def loadUsersTry (pf : Platform) (p : AdminPage) : AdminPage × Except Thrown Unit :=
  let request := usersRequest p
  let p : AdminPage := { p with requests := p.requests ++ [request] }
  loadUsersResume pf request p

/-- The function `loadUsers()` from `await fetch(...)` on, with its `catch`
block: all that `loadUsers` does after it has called `fetch`.  The function
writes to the page only after its last `await`, so this is one step. -/
def loadUsersSettle (pf : Platform) (request : Request) (p : AdminPage) :
    AdminPage × Except Thrown Unit :=
  match loadUsersResume pf request p with
  | (p, .ok _) => (p, .ok ())
  | (p, .error _) =>
    let p : AdminPage := { p with allUsers := generateMockUsers }
    showAllUsers p

/-- The function `loadUsers()`. -/
def loadUsers (pf : Platform) (p : AdminPage) : AdminPage × Except Thrown Unit :=
  match loadUsersTry pf p with
  | (p, .ok _) => (p, .ok ())
  | (p, .error _) =>
    let p : AdminPage := { p with allUsers := generateMockUsers }
    showAllUsers p

/-- The call `hay.includes(needle)`. -/
def includes (hay needle : String) : Bool :=
  hay.data.tails.any (fun t => needle.data.isPrefixOf t)

/-- The call `v.toLowerCase().includes(searchTerm)`: only a string has the
method `toLowerCase`. -/
def lowerIncludes (pf : Platform) (v : JsVal) (searchTerm : String) : Except Thrown Bool :=
  match v with
  | .str s => .ok (includes (pf.toLowerCase s) searchTerm)
  | _ => .error (.native "TypeError")

/-- The callback of `allUsers.filter` in `filterUsers`. -/
def filterUsersCallback (pf : Platform) (searchTerm roleFilter : String) (user : JsVal) :
    Except Thrown Bool :=
  match user.getProp "username" with
  | .error e => .error e
  | .ok username =>
    match lowerIncludes pf username searchTerm with
    | .error e => .error e
    | .ok byName =>
      let bySearch : Except Thrown Bool :=
        if byName then .ok true
        else
          match user.getProp "email" with
          | .error e => .error e
          | .ok email => lowerIncludes pf email searchTerm
      match bySearch with
      | .error e => .error e
      | .ok matchesSearch =>
        let matchesRole : Except Thrown Bool :=
          if roleFilter == "all" then .ok true
          else
            match user.getProp "role" with
            | .error e => .error e
            | .ok role => .ok (role.strictEqStr roleFilter)
        match matchesRole with
        | .error e => .error e
        | .ok matchesRole => .ok (matchesSearch && matchesRole)

/-- The call `allUsers.filter(callback)` on the elements of an array. -/
def filterElements (callback : JsVal → Except Thrown Bool) :
    List JsVal → Except Thrown (List JsVal)
  | [] => .ok []
  | x :: rest =>
    match callback x with
    | .error e => .error e
    | .ok keep =>
      match filterElements callback rest with
      | .error e => .error e
      | .ok kept => .ok (if keep then x :: kept else kept)

/-- The function `filterUsers()`. -/
def filterUsers (pf : Platform) (p : AdminPage) : AdminPage × Except Thrown Unit :=
  let searchTerm := pf.toLowerCase p.userSearch
  let roleFilter := p.userRoleFilter
  match p.allUsers with
  | .arr users =>
    match filterElements (filterUsersCallback pf searchTerm roleFilter) users with
    | .error e => (p, .error e)
    | .ok filtered => displayUsers (.arr filtered) p
  | _ => (p, .error (.native "TypeError"))

end Admin

/-! ## Numbers

The numbers of the script are IEEE 754 doubles.  A finite double is modelled
by its rational value, and an arithmetic operation by the exact operation
followed by `toDouble`, the rounding to the nearest double. -/

/-- The integer nearest to `y`, the even one of the two when `y` lies halfway:
the rounding of double arithmetic. -/
def roundHalfEven (y : ℚ) : ℤ :=
  if y - ⌊y⌋ < 1 / 2 then ⌊y⌋
  else if 1 / 2 < y - ⌊y⌋ then ⌊y⌋ + 1
  else if ⌊y⌋ % 2 = 0 then ⌊y⌋ else ⌊y⌋ + 1

/-- The binary exponent of the doubles around a positive `q`: the `e` with
`2 ^ e ≤ q < 2 ^ (e + 1)`, and that of the subnormal doubles below them. -/
def binade (q : ℚ) : ℤ :=
  max (Int.log 2 q) (-1022)

/-- The double nearest to `q`, for `q` below the overflow threshold: doubles
have 53 significant bits, so around `q` they are the multiples of
`2 ^ (binade |q| - 52)`. -/
def toDouble (q : ℚ) : ℚ :=
  if q = 0 then 0
  else (roundHalfEven (q / 2 ^ (binade |q| - 52)) : ℚ) * 2 ^ (binade |q| - 52)

/-- The numeral with two decimals of `n` hundredths. -/
def hundredthsNumeral (n : Nat) : String :=
  Nat.repr (n / 100) ++ "." ++
    String.mk [Nat.digitChar (n / 10 % 10), Nat.digitChar (n % 10)]

/-- The call `x.toFixed(2)` for a double `0 ≤ x < 10 ^ 21`: the integer `n`
for which `n / 100 - x` is closest to zero, the larger one of two, written
with two decimals. -/
def toFixed2 (x : ℚ) : String :=
  hundredthsNumeral ⌊x * 100 + 1 / 2⌋.toNat

/-! ## `Frontend/admin.js`: campaigns, statistics and the page load -/

namespace Admin

/-- What `admin.js` uses of the platform besides `Platform`. -/
structure AdminPlatform where
  /-- The method `toLocaleString` of a value other than `null` and `undefined`. -/
  toLocaleString : JsVal → String
  /-- The results of the successive calls of `Math.random()`. -/
  random : Nat → ℚ
  /-- The text of `((clicks / impressions) * 100).toFixed(2)` where the model
  of the numbers does not give it: operands that are not numbers, a negative
  or infinite quotient, a result of `10 ^ 21` or more. -/
  ctrOther : JsVal → JsVal → String

/-- A row of `campaignsTableBody`: the values and texts put in its cells. -/
structure CampaignRow where
  user : JsVal
  name : JsVal
  platform : JsVal
  impressions : String
  clicks : String
  spend : String
  ctr : String
  status : JsVal

/-- The admin panel: the state of `AdminPage` and what the rest of `admin.js`
reads and writes. -/
structure AdminPanel where
  page : AdminPage
  /-- The rows of `campaignsTableBody`. -/
  campaignsTableBody : List CampaignRow
  /-- The text of `activeCampaigns`. -/
  activeCampaigns : Nat
  /-- The text of `totalSpend`. -/
  totalSpend : String
  /-- The text of `totalPredictions`. -/
  totalPredictions : String
  /-- Whether the element `loading` is shown. -/
  loadingShown : Bool
  /-- The calls of `showNotification`, oldest first: message and type. -/
  notifications : List (String × String)
  /-- The canvases a chart has been created on, oldest first. -/
  charts : List String
  /-- The number of calls of `Math.random()` made so far. -/
  randomCalls : Nat

/-- The function `checkAdminAuth()`. -/
def checkAdminAuth (a : AdminPanel) : AdminPanel :=
  let token := a.page.localStorage.getItem "access_token"
  let userRole := a.page.localStorage.getItem "user_role"
  if !itemTruthy token || userRole != some "admin" then
    { a with page := { a.page with href := "/login" } }
  else
    a

/-- The expression `Math.floor(r * n)` for the result `r` of `Math.random()`. -/
def randomBelow (r : ℚ) (n : Nat) : Int :=
  ⌊toDouble (r * n)⌋

/-- The element `xs[k]` of an array of strings. -/
def stringAt (xs : List String) (k : Int) : JsVal :=
  if k < 0 then .undefined
  else
    match xs.get? k.toNat with
    | some s => .str s
    | none => .undefined

/-- The object pushed by the iteration `i` of the loop of
`generateMockCampaigns()`, after `k` earlier calls of `Math.random()`. -/
def mockCampaign (env : AdminPlatform) (k i : Nat) : JsVal :=
  .obj [("id", .num i),
    ("user", stringAt ["john_doe", "jane_smith", "demo_user"] (randomBelow (env.random k) 3)),
    ("name", .str ("Campaign " ++ Nat.repr i)),
    ("platform",
      stringAt ["Google Ads", "Facebook Ads", "Instagram Ads", "LinkedIn Ads"]
        (randomBelow (env.random (k + 1)) 4)),
    ("impressions", .num (randomBelow (env.random (k + 2)) 100000 + 10000)),
    ("clicks", .num (randomBelow (env.random (k + 3)) 5000 + 500)),
    ("spend", .num (randomBelow (env.random (k + 4)) 5000 + 500)),
    ("status",
      stringAt ["active", "paused", "stopped"] (randomBelow (env.random (k + 5)) 3))]

/-- The function `generateMockCampaigns()`, after `k` earlier calls of
`Math.random()`: twenty campaigns, six calls each. -/
def generateMockCampaigns (env : AdminPlatform) (k : Nat) : JsVal :=
  .arr ((List.range 20).map (fun j => mockCampaign env (k + 6 * j) (j + 1)))

/-- The double `(clicks / impressions) * 100`. -/
def ctrValue (clicks impressions : ℚ) : ℚ :=
  toDouble (toDouble (clicks / impressions) * 100)

/-- The text of `((clicks / impressions) * 100).toFixed(2)`, for operands whose
conversion to a number returns. -/
def ctrText (env : AdminPlatform) (clicks impressions : JsVal) : String :=
  match clicks, impressions with
  | .num c, .num i =>
    if 0 ≤ c ∧ 0 < i ∧ ctrValue c i < 10 ^ 21 then toFixed2 (ctrValue c i)
    else env.ctrOther clicks impressions
  | _, _ => env.ctrOther clicks impressions

mutual

/-- Whether the call `v.toLocaleString()` returns.  It throws on `null` and
`undefined`, and on an object parsed from JSON that has a field
`toLocaleString`, which is no function, or a field `toString`, which the
inherited `toLocaleString` calls.  An array calls it on its elements other
than `null` and `undefined`. -/
def localizes : JsVal → Bool
  | .undefined => false
  | .null => false
  | .obj fields => !(fields.lookup "toLocaleString").isSome && !(fields.lookup "toString").isSome
  | .arr xs => localizesAll xs
  | _ => true

/-- Whether `toLocaleString` returns on every element of an array that is
not `null` or `undefined`. -/
def localizesAll : List JsVal → Bool
  | [] => true
  | x :: xs => (x.isNullish || localizes x) && localizesAll xs

end

/-- The call `v.toLocaleString()`. -/
def localeString (env : AdminPlatform) (v : JsVal) : Except Thrown String :=
  if localizes v then .ok (env.toLocaleString v) else .error (.native "TypeError")

/-- The body of the callback of `campaigns.forEach` in `displayCampaigns` up
to the row it appends: the division converts its operands to numbers and the
template literal converts what it is given to strings. -/
def campaignRow (env : AdminPlatform) (campaign : JsVal) : Except Thrown CampaignRow := do
  let clicks ← campaign.getProp "clicks"
  let impressions ← campaign.getProp "impressions"
  clicks.toText
  impressions.toText
  let ctr := ctrText env clicks impressions
  let user ← campaign.getProp "user"
  user.toText
  let name ← campaign.getProp "name"
  name.toText
  let platform ← campaign.getProp "platform"
  platform.toText
  let impressionsText ← localeString env impressions
  let clicksText ← localeString env clicks
  let spend ← campaign.getProp "spend"
  let spendText ← localeString env spend
  let status ← campaign.getProp "status"
  status.toText
  pure { user := user, name := name, platform := platform, impressions := impressionsText,
         clicks := clicksText, spend := "$" ++ spendText, ctr := ctr ++ "%", status := status }

/-- The loop `campaigns.forEach(campaign => ...)` of `displayCampaigns`. -/
def appendCampaignRows (env : AdminPlatform) :
    List JsVal → AdminPanel → AdminPanel × Except Thrown Unit
  | [], a => (a, .ok ())
  | campaign :: rest, a =>
    match campaignRow env campaign with
    | .error e => (a, .error e)
    | .ok row =>
      appendCampaignRows env rest
        { a with campaignsTableBody := a.campaignsTableBody ++ [row] }

/-- The callback `c => c.status === 'active'`. -/
def isActive (c : JsVal) : Except Thrown Bool :=
  match c.getProp "status" with
  | .error e => .error e
  | .ok status => .ok (status.strictEqStr "active")

/-- The function `displayCampaigns(campaigns)`. -/
def displayCampaigns (env : AdminPlatform) (campaigns : JsVal) (a : AdminPanel) :
    AdminPanel × Except Thrown Unit :=
  let a : AdminPanel := { a with campaignsTableBody := [] }
  match campaigns with
  | .arr cs =>
    match appendCampaignRows env cs a with
    | (a, .error e) => (a, .error e)
    | (a, .ok _) =>
      match filterElements isActive cs with
      | .error e => (a, .error e)
      | .ok active => ({ a with activeCampaigns := active.length }, .ok ())
  | _ => (a, .error (.native "TypeError"))

/-- The request `loadCampaigns` makes. -/
def campaignsRequest (p : AdminPage) : Request :=
  { url := API_BASE_URL ++ "/admin/campaigns",
    options :=
      { method := none,
        headers :=
          [("Authorization", "Bearer " ++ itemText (p.localStorage.getItem "access_token"))],
        body := none } }

/-- The assignment `allCampaigns = generateMockCampaigns()`. -/
def assignMockCampaigns (env : AdminPlatform) (a : AdminPanel) : AdminPanel :=
  { a with
    page := { a.page with allCampaigns := generateMockCampaigns env a.randomCalls },
    randomCalls := a.randomCalls + 120 }

/-- The `try` block of `loadCampaigns` from `await fetch(...)` on, the call of
`fetch` made with `request`. -/
def loadCampaignsResume (pf : Platform) (env : AdminPlatform) (request : Request)
    (a : AdminPanel) : AdminPanel × Except Thrown Unit :=
  match pf.fetch request with
  | .rejected e => (a, .error e)
  | .resolved response =>
    if response.ok then
      match response.json with
      | .error e => (a, .error e)
      | .ok data =>
        match data.getProp "campaigns" with
        | .error e => (a, .error e)
        | .ok campaigns =>
          let a : AdminPanel :=
            if campaigns.truthy then { a with page := { a.page with allCampaigns := campaigns } }
            else assignMockCampaigns env a
          displayCampaigns env a.page.allCampaigns a
    else
      let a := assignMockCampaigns env a
      displayCampaigns env a.page.allCampaigns a

/-- The function `loadCampaigns()` from `await fetch(...)` on, with its `catch`
block: one step, after the last `await`. -/
def loadCampaignsSettle (pf : Platform) (env : AdminPlatform) (request : Request)
    (a : AdminPanel) : AdminPanel × Except Thrown Unit :=
  match loadCampaignsResume pf env request a with
  | (a, .ok _) => (a, .ok ())
  | (a, .error _) =>
    let a := assignMockCampaigns env a
    displayCampaigns env a.page.allCampaigns a

/-- The function `loadCampaigns()`. -/
def loadCampaigns (pf : Platform) (env : AdminPlatform) (a : AdminPanel) :
    AdminPanel × Except Thrown Unit :=
  let request := campaignsRequest a.page
  let a : AdminPanel := { a with page := { a.page with requests := a.page.requests ++ [request] } }
  loadCampaignsSettle pf env request a

/-- The function `generateMockStats()`. -/
def generateMockStats : JsVal :=
  .obj [("total_spend", .num 125430), ("total_predictions", .num 1247),
    ("active_campaigns", .num 15)]

/-- The function `updateSystemStats(stats)`. -/
def updateSystemStats (env : AdminPlatform) (stats : JsVal) (a : AdminPanel) :
    AdminPanel × Except Thrown Unit :=
  match stats.getProp "total_spend" with
  | .error e => (a, .error e)
  | .ok totalSpend =>
    match localeString env totalSpend with
    | .error e => (a, .error e)
    | .ok spendText =>
      let a : AdminPanel := { a with totalSpend := "$" ++ spendText }
      match stats.getProp "total_predictions" with
      | .error e => (a, .error e)
      | .ok totalPredictions =>
        match localeString env totalPredictions with
        | .error e => (a, .error e)
        | .ok predictionsText => ({ a with totalPredictions := predictionsText }, .ok ())

/-- The request `loadSystemStats` makes. -/
def statsRequest (p : AdminPage) : Request :=
  { url := API_BASE_URL ++ "/admin/stats",
    options :=
      { method := none,
        headers :=
          [("Authorization", "Bearer " ++ itemText (p.localStorage.getItem "access_token"))],
        body := none } }

/-- The `try` block of `loadSystemStats` from `await fetch(...)` on, the call
of `fetch` made with `request`. -/
def loadSystemStatsResume (pf : Platform) (env : AdminPlatform) (request : Request)
    (a : AdminPanel) : AdminPanel × Except Thrown Unit :=
  match pf.fetch request with
  | .rejected e => (a, .error e)
  | .resolved response =>
    if response.ok then
      match response.json with
      | .error e => (a, .error e)
      | .ok data => updateSystemStats env data a
    else
      updateSystemStats env generateMockStats a

/-- The function `loadSystemStats()` from `await fetch(...)` on, with its
`catch` block: one step, after the last `await`. -/
def loadSystemStatsSettle (pf : Platform) (env : AdminPlatform) (request : Request)
    (a : AdminPanel) : AdminPanel × Except Thrown Unit :=
  match loadSystemStatsResume pf env request a with
  | (a, .ok _) => (a, .ok ())
  | (a, .error _) => updateSystemStats env generateMockStats a

/-- The function `loadSystemStats()`. -/
def loadSystemStats (pf : Platform) (env : AdminPlatform) (a : AdminPanel) :
    AdminPanel × Except Thrown Unit :=
  let request := statsRequest a.page
  let a : AdminPanel := { a with page := { a.page with requests := a.page.requests ++ [request] } }
  loadSystemStatsSettle pf env request a

/-- The function `showLoading(show)`. -/
def showLoading (shown : Bool) (a : AdminPanel) : AdminPanel :=
  { a with loadingShown := shown }

/-- The function `showNotification(message, type)`. -/
def showNotification (message type : String) (a : AdminPanel) : AdminPanel :=
  { a with notifications := a.notifications ++ [(message, type)] }

/-- The three functions `loadAdminData` runs side by side. -/
inductive Loader where
  | users
  | campaigns
  | stats
deriving DecidableEq, Repr

/-- The calls of `fetch` of the three loaders. -/
structure LoaderRequests where
  users : Request
  campaigns : Request
  stats : Request

/-- The order in which the three loaders settle, given the order in which the
platform lets them resume: every loader once, the ones the platform does not
name last. -/
def settleOrder (seen : List Loader) : List Loader → List Loader
  | [] => [Loader.users, Loader.campaigns, Loader.stats].filter (fun l => !seen.contains l)
  | l :: rest =>
    if seen.contains l then settleOrder seen rest else l :: settleOrder (seen ++ [l]) rest

/-- The step in which a loader settles. -/
def settle (pf : Platform) (env : AdminPlatform) (requests : LoaderRequests) :
    Loader → AdminPanel → AdminPanel × Except Thrown Unit
  | .users, a =>
    ({ a with page := (loadUsersSettle pf requests.users a.page).1 },
      (loadUsersSettle pf requests.users a.page).2)
  | .campaigns, a => loadCampaignsSettle pf env requests.campaigns a
  | .stats, a => loadSystemStatsSettle pf env requests.stats a

/-- The loaders settle one after the other in the given order; the result
tells whether none of them has thrown. -/
def settleAll (pf : Platform) (env : AdminPlatform) (requests : LoaderRequests) :
    List Loader → AdminPanel → AdminPanel × Bool
  | [], a => (a, true)
  | l :: rest, a =>
    let step := settle pf env requests l a
    let later := settleAll pf env requests rest step.1
    (later.1,
      (match step.2 with
        | .ok _ => true
        | .error _ => false) && later.2)

/-- The function `loadAdminData()` up to `await Promise.all(...)`: the three
loaders are called in the order written, and each runs up to its
`await fetch(...)`, so the three calls of `fetch` are made before anything
else happens. -/
def loadAdminDataStart (a : AdminPanel) : AdminPanel × LoaderRequests :=
  let a := showLoading true a
  let requests : LoaderRequests :=
    { users := usersRequest a.page, campaigns := campaignsRequest a.page,
      stats := statsRequest a.page }
  ({ a with
      page := { a.page with
        requests := a.page.requests ++ [requests.users, requests.campaigns, requests.stats] } },
    requests)

/-- The function `loadAdminData()` from `await Promise.all(...)` on.  The three
loaders settle in an order the platform decides, `arrival`; the promise of
`Promise.all` is rejected when one of them throws, which the `catch` block
answers with a notification.  The notification and `showLoading(false)` write
what no loader reads or writes, so they are put after the last loader, also
when the rejection comes before the other loaders have settled. -/
def loadAdminDataFinish (pf : Platform) (env : AdminPlatform) (arrival : List Loader)
    (requests : LoaderRequests) (a : AdminPanel) : AdminPanel × Except Thrown Unit :=
  let settled := settleAll pf env requests (settleOrder [] arrival) a
  let a : AdminPanel :=
    if settled.2 then settled.1
    else showNotification "Failed to load admin data" "error" settled.1
  (showLoading false a, .ok ())

/-- The function `loadAdminData()`. -/
def loadAdminData (pf : Platform) (env : AdminPlatform) (arrival : List Loader)
    (a : AdminPanel) : AdminPanel × Except Thrown Unit :=
  loadAdminDataFinish pf env arrival (loadAdminDataStart a).2 (loadAdminDataStart a).1

/-- The function `initializeCharts()`: each of the four functions it calls
creates a chart on its canvas. -/
def initializeCharts (a : AdminPanel) : AdminPanel :=
  { a with
    charts := a.charts ++
      ["userGrowthChart", "revenueTrendsChart", "platformDistributionChart",
        "mlPerformanceChart"] }

/-- The listener of `DOMContentLoaded` and what it leaves to run: the promise
of `loadAdminData()` is not awaited, so `initializeCharts()` runs once the
three calls of `fetch` are made, and the loaders settle afterwards.  Nothing
the listener calls returns a value it looks at. -/
def onDOMContentLoaded (pf : Platform) (env : AdminPlatform) (arrival : List Loader)
    (a : AdminPanel) : AdminPanel :=
  let a := checkAdminAuth a
  let started := loadAdminDataStart a
  let a := initializeCharts started.1
  (loadAdminDataFinish pf env arrival started.2 a).1

end Admin

/-! ## Definitions that follow the words of the specification -/

namespace Script

/-- Digits grouped in threes with commas, as the specification words it: `out`
is a first group of one to three characters followed by groups of exactly
three characters, each after a comma, and the groups without the commas are
`digits`. -/
def GroupedInThrees (digits out : List Char) : Prop :=
  ∃ (first : List Char) (groups : List (List Char)),
    out = first ++ (groups.map (fun g => ',' :: g)).flatten ∧
    1 ≤ first.length ∧ first.length ≤ 3 ∧
    (∀ g ∈ groups, g.length = 3) ∧
    first ++ groups.flatten = digits

end Script

namespace Admin

/-- The field `key` of a value that is not `null` or `undefined`. -/
def field (v : JsVal) (key : String) : JsVal :=
  match v with
  | .obj fields => (fields.lookup key).getD .undefined
  | _ => .undefined

/-- A user `displayUsers` can render: a value other than `null` and
`undefined` whose `id`, `username`, `email`, `role`, `created_at` and
`campaigns_count` convert to strings, as every string, number, boolean and
`null` does. -/
def rendersAsUser (u : JsVal) : Bool :=
  !u.isNullish && (field u "id").converts && (field u "username").converts &&
    (field u "email").converts && (field u "role").converts &&
    (field u "created_at").converts && ((field u "campaigns_count").or (.num 0)).converts

/-- An array of users `displayUsers` can render. -/
def isUserArray : JsVal → Bool
  | .arr xs => xs.all rendersAsUser
  | _ => false

/-- An array of campaigns `updateUserFilter` can list the users of: no entry is
`null` or `undefined` and the `user` of every entry converts to a string. -/
def isCampaignArray : JsVal → Bool
  | .arr cs => cs.all (fun c => !c.isNullish && (field c "user").converts)
  | _ => false

/-- The users `filterUsers` is to show, as the specification words it: the
lower-cased username or the lower-cased email contains the lower-cased search
string as a substring, and the role is the role filter or the role filter is
`all`. -/
def MatchesFilter (pf : Platform) (search roleFilter : String) (u : User) : Prop :=
  ((pf.toLowerCase search).data <:+: (pf.toLowerCase u.username).data ∨
      (pf.toLowerCase search).data <:+: (pf.toLowerCase u.email).data) ∧
    (u.role = roleFilter ∨ roleFilter = "all")

instance (pf : Platform) (search roleFilter : String) (u : User) :
    Decidable (MatchesFilter pf search roleFilter u) := by
  unfold MatchesFilter
  infer_instance

end Admin

/-! ## Concrete inputs -/

namespace Script

/-- A backend that answers every request with status 401. -/
def unauthorizedBackend : Platform :=
  { fetch := fun _ =>
      .resolved { status := 401, json := .ok (.obj [("msg", .str "Token has expired")]) },
    stringify := fun _ => "{}",
    toLowerCase := fun s => ⟨s.data.map Char.toLower⟩ }

/-- A session as the login page stores it. -/
def loggedIn : Browser :=
  { localStorage :=
      [("access_token", "abc"), ("user_id", "7"), ("user_name", "Ann"),
        ("user_email", "ann@example.com")],
    href := "/dashboard", requests := [], ui := [] }

/-- A browser without a session. -/
def loggedOut : Browser :=
  { localStorage := [("theme", "dark")], href := "/dashboard", requests := [], ui := [] }

/-- A `toFixed` for amounts given in whole cents: the integer part, a point,
and the two digits of the cents. -/
def fixedOfCents (cents : Nat) (_fractionDigits : Nat) : String :=
  Nat.repr (cents / 100) ++ "." ++
    String.mk [Nat.digitChar (cents / 10 % 10), Nat.digitChar (cents % 10)]

end Script

namespace Admin

/-- The admin panel before its data is loaded. -/
def freshPage : AdminPage :=
  { localStorage := [("access_token", "abc"), ("user_role", "admin")],
    href := "/admin", requests := [], allUsers := .arr [], allCampaigns := .arr [],
    userSearch := "", userRoleFilter := "all", usersTableBody := [], totalUsers := 0,
    campaignUserFilter := [], displayed := [] }

/-- A platform whose backend answers every request with the given status and
JSON body, and whose `toLowerCase` lowers the ASCII letters. -/
def backendAnswering (status : Nat) (body : JsVal) : Platform :=
  { fetch := fun _ => .resolved { status := status, json := .ok body },
    stringify := fun _ => "{}",
    toLowerCase := fun s => ⟨s.data.map Char.toLower⟩ }

/-- A platform for the rest of `admin.js`: `Math.random()` always gives 0 and
the texts are fixed. -/
def plainAdminPlatform : AdminPlatform :=
  { toLocaleString := fun _ => "0", random := fun _ => 0, ctrOther := fun _ _ => "NaN" }

/-- The admin panel opened in a browser without a session, before the
listener of `DOMContentLoaded` runs. -/
def panelWithoutSession : AdminPanel :=
  { page := { freshPage with localStorage := [] },
    campaignsTableBody := [], activeCampaigns := 0, totalSpend := "", totalPredictions := "",
    loadingShown := false, notifications := [], charts := [], randomCalls := 0 }

/-- A campaign record with the given clicks and impressions. -/
def campaignWith (clicks impressions : ℚ) : JsVal :=
  .obj [("id", .num 1), ("user", .str "john_doe"), ("name", .str "Campaign 1"),
    ("platform", .str "Google Ads"), ("impressions", .num impressions),
    ("clicks", .num clicks), ("spend", .num 500), ("status", .str "active")]

end Admin

/-! ## Local storage lemmas -/

theorem Storage.getItem_removeItem (s : Storage) (k k' : String) :
    (s.removeItem k').getItem k = if k = k' then none else s.getItem k := by
  induction s with
  | nil => simp [Storage.removeItem, Storage.getItem]
  | cons e s ih =>
    obtain ⟨a, v⟩ := e
    simp only [Storage.removeItem, Storage.getItem] at ih ⊢
    by_cases hak : a = k'
    · subst hak
      by_cases hk : k = a
      · subst hk; simpa using ih
      · have : (k == a) = false := by simpa using hk
        simp [List.filter_cons, List.lookup_cons, this, hk] at ih ⊢
        simpa [hk] using ih
    · have h1 : (a != k') = true := by simpa using hak
      by_cases hk : k = a
      · subst hk
        simp [List.filter_cons, h1, List.lookup_cons, hak]
      · have : (k == a) = false := by simpa using hk
        simp [List.filter_cons, h1, List.lookup_cons, this]
        simpa using ih

namespace Script

/-- The storage after the four `removeItem` calls made on a 401 response and in `logout`. -/
theorem getItem_cleared (s : Storage) (k : String)
    (hk : k = "access_token" ∨ k = "user_id" ∨ k = "user_name" ∨ k = "user_email") :
    ((((s.removeItem "access_token").removeItem "user_id").removeItem "user_name").removeItem
      "user_email").getItem k = none := by
  rcases hk with h | h | h | h <;> subst h <;> simp [Storage.getItem_removeItem]

theorem apiCallFetch_requests (pf : Platform) (endpoint : String) (options : Options)
    (b : Browser) :
    (apiCallFetch pf endpoint options b).1.requests =
      b.requests ++ [{ url := API_BASE_URL ++ endpoint, options := options }] := by
  cases hf : pf.fetch { url := API_BASE_URL ++ endpoint, options := options } with
  | rejected e => simp [apiCallFetch, hf]
  | resolved r =>
    by_cases h : r.status = 401
    · simp [apiCallFetch, hf, h]
    · cases hj : r.json <;> simp [apiCallFetch, hf, h, hj]

theorem apiCallFetch_unauthorized (pf : Platform) (endpoint : String) (options : Options)
    (b : Browser) (response : Response)
    (hfetch : pf.fetch { url := API_BASE_URL ++ endpoint, options := options } =
      .resolved response)
    (hstatus : response.status = 401) :
    apiCallFetch pf endpoint options b =
      ({ localStorage :=
            (((b.localStorage.removeItem "access_token").removeItem "user_id").removeItem
              "user_name").removeItem "user_email",
          href := "/login",
          requests := b.requests ++ [{ url := API_BASE_URL ++ endpoint, options := options }],
          ui := b.ui },
        .error (.error "Authentication failed")) := by
  simp [apiCallFetch, hfetch, hstatus]

/-- C1: whenever `apiCall` hands a request to `fetch` and the response has
status 401, the four session keys are absent from local storage afterwards,
the location is `/login`, and the call fails with the error
`Authentication failed`. -/
theorem apiCall_unauthorized (pf : Platform) (endpoint method : String) (data : JsVal)
    (requiresAuth : Bool) (b : Browser) (request : Request) (response : Response)
    (hsent : (apiCall pf endpoint method data requiresAuth b).1.requests =
      b.requests ++ [request])
    (hfetch : pf.fetch request = .resolved response)
    (hstatus : response.status = 401) :
    (apiCall pf endpoint method data requiresAuth b).2 =
        .error (.error "Authentication failed") ∧
      (apiCall pf endpoint method data requiresAuth b).1.href = "/login" ∧
      (apiCall pf endpoint method data requiresAuth b).1.localStorage.getItem "access_token" =
        none ∧
      (apiCall pf endpoint method data requiresAuth b).1.localStorage.getItem "user_id" = none ∧
      (apiCall pf endpoint method data requiresAuth b).1.localStorage.getItem "user_name" =
        none ∧
      (apiCall pf endpoint method data requiresAuth b).1.localStorage.getItem "user_email" =
        none := by
  unfold apiCall at hsent ⊢
  cases requiresAuth with
  | true =>
    by_cases htok : itemTruthy (b.localStorage.getItem "access_token") = true
    · simp only [htok, if_true] at hsent ⊢
      rw [apiCallFetch_requests] at hsent
      have hreq := List.append_cancel_left hsent
      simp only [List.cons.injEq, and_true] at hreq
      rw [← hreq] at hfetch
      rw [apiCallFetch_unauthorized pf _ _ b response hfetch hstatus]
      simp [getItem_cleared]
    · simp [htok] at hsent
  | false =>
    simp only [Bool.false_eq_true, if_false] at hsent ⊢
    rw [apiCallFetch_requests] at hsent
    have hreq := List.append_cancel_left hsent
    simp only [List.cons.injEq, and_true] at hreq
    rw [← hreq] at hfetch
    rw [apiCallFetch_unauthorized pf _ _ b response hfetch hstatus]
    simp [getItem_cleared]

theorem apiCall_unauthorized_witness :
    (apiCall unauthorizedBackend "/get_metrics" "GET" .null true loggedIn).2 =
        .error (.error "Authentication failed") ∧
      (apiCall unauthorizedBackend "/get_metrics" "GET" .null true loggedIn).1.href = "/login" ∧
      (apiCall unauthorizedBackend "/get_metrics" "GET" .null true loggedIn).1.localStorage.getItem
        "access_token" = none ∧
      (apiCall unauthorizedBackend "/get_metrics" "GET" .null true loggedIn).1.localStorage.getItem
        "user_id" = none ∧
      (apiCall unauthorizedBackend "/get_metrics" "GET" .null true loggedIn).1.localStorage.getItem
        "user_name" = none ∧
      (apiCall unauthorizedBackend "/get_metrics" "GET" .null true loggedIn).1.localStorage.getItem
        "user_email" = none :=
  apiCall_unauthorized unauthorizedBackend "/get_metrics" "GET" .null true loggedIn
    { url := "http://127.0.0.1:5000/api/get_metrics",
      options :=
        { method := some "GET",
          headers := [("Content-Type", "application/json"), ("Authorization", "Bearer abc")],
          body := none } }
    { status := 401, json := .ok (.obj [("msg", .str "Token has expired")]) }
    (by rfl) (by rfl) (by rfl)

/-- C2: with `requiresAuth` true and no stored `access_token` (absent, or the
empty string), `apiCall` sets the location to `/login` and fails with the
error `No authentication token found`; no request is handed to `fetch` and
local storage is as before. -/
theorem apiCall_no_token (pf : Platform) (endpoint method : String) (data : JsVal)
    (b : Browser)
    (htoken : b.localStorage.getItem "access_token" = none ∨
      b.localStorage.getItem "access_token" = some "") :
    (apiCall pf endpoint method data true b).2 =
        .error (.error "No authentication token found") ∧
      (apiCall pf endpoint method data true b).1.href = "/login" ∧
      (apiCall pf endpoint method data true b).1.requests = b.requests ∧
      (apiCall pf endpoint method data true b).1.localStorage = b.localStorage := by
  have h : itemTruthy (b.localStorage.getItem "access_token") = false := by
    rcases htoken with h | h <;> simp [h, itemTruthy]
  simp [apiCall, h]

theorem apiCall_no_token_witness :
    (loggedOut.localStorage.getItem "access_token" = none ∨
      loggedOut.localStorage.getItem "access_token" = some "") ∧
    (apiCall unauthorizedBackend "/get_metrics" "GET" .null true loggedOut).2 =
        .error (.error "No authentication token found") ∧
      (apiCall unauthorizedBackend "/get_metrics" "GET" .null true loggedOut).1.href =
        "/login" ∧
      (apiCall unauthorizedBackend "/get_metrics" "GET" .null true loggedOut).1.requests =
        loggedOut.requests ∧
      (apiCall unauthorizedBackend "/get_metrics" "GET" .null true loggedOut).1.localStorage =
        loggedOut.localStorage :=
  ⟨Or.inl (by rfl),
    apiCall_no_token unauthorizedBackend "/get_metrics" "GET" .null loggedOut (Or.inl (by rfl))⟩

/-- C3: `apiCall` hands a request to `fetch` exactly when `requiresAuth` is
false or a non-empty `access_token` is stored, and at most one.  That request
goes to `API_BASE_URL + endpoint` with the given method; its header
`Authorization` is `Bearer ` followed by the stored token when `requiresAuth`
is true and is absent when `requiresAuth` is false; its header `Content-Type`
is `application/json`; its body is `JSON.stringify(data)` when `data` is
truthy and is absent otherwise. -/
theorem apiCall_request (pf : Platform) (endpoint method : String) (data : JsVal)
    (requiresAuth : Bool) (b : Browser) :
    ((requiresAuth = false ∨ itemTruthy (b.localStorage.getItem "access_token") = true) →
        ∃ request, (apiCall pf endpoint method data requiresAuth b).1.requests =
          b.requests ++ [request]) ∧
      (¬ (requiresAuth = false ∨ itemTruthy (b.localStorage.getItem "access_token") = true) →
        (apiCall pf endpoint method data requiresAuth b).1.requests = b.requests) ∧
      ∀ request, (apiCall pf endpoint method data requiresAuth b).1.requests =
          b.requests ++ [request] →
        request.url = API_BASE_URL ++ endpoint ∧
        request.options.method = some method ∧
        (requiresAuth = true →
          ∃ t, b.localStorage.getItem "access_token" = some t ∧ t ≠ "" ∧
            request.options.headers.lookup "Authorization" = some ("Bearer " ++ t)) ∧
        (requiresAuth = false → request.options.headers.lookup "Authorization" = none) ∧
        request.options.headers.lookup "Content-Type" = some "application/json" ∧
        (data.truthy = true → request.options.body = some (pf.stringify data)) ∧
        (data.truthy = false → request.options.body = none) := by
  cases requiresAuth with
  | false =>
    refine ⟨fun _ => ⟨_, by simp [apiCall, apiCallFetch_requests]; rfl⟩, by simp, ?_⟩
    intro request hsent
    simp only [apiCall, Bool.false_eq_true, if_false, apiCallFetch_requests] at hsent
    have hreq := List.append_cancel_left hsent
    simp only [List.cons.injEq, and_true] at hreq
    subst hreq
    by_cases hd : data.truthy = true <;> simp [hd, List.lookup]
  | true =>
    cases htok : b.localStorage.getItem "access_token" with
    | none =>
      refine ⟨by simp [itemTruthy], by simp [apiCall, itemTruthy, htok], ?_⟩
      intro request hsent
      simp [apiCall, itemTruthy, htok] at hsent
    | some t =>
      by_cases ht : t = ""
      · subst ht
        refine ⟨by simp [itemTruthy], by simp [apiCall, itemTruthy, htok], ?_⟩
        intro request hsent
        simp [apiCall, itemTruthy, htok] at hsent
      · refine ⟨fun _ =>
            ⟨_, by simp [apiCall, itemTruthy, htok, ht, apiCallFetch_requests]; rfl⟩,
          by simp [itemTruthy, ht], ?_⟩
        intro request hsent
        simp only [apiCall, itemTruthy, htok, if_true] at hsent
        simp only [bne_iff_ne, ne_eq, ht, not_false_eq_true, if_true] at hsent
        rw [apiCallFetch_requests] at hsent
        have hreq := List.append_cancel_left hsent
        simp only [List.cons.injEq, and_true] at hreq
        subst hreq
        by_cases hd : data.truthy = true <;>
          simp [hd, List.lookup, setHeader, itemText, ht]

/-- C4: `checkLogin` returns true exactly when a non-empty `access_token` and
a non-empty `user_id` are stored; whenever it returns false the location is
`/login`; when it returns true the location is as before; local storage is
as before in both cases. -/
theorem checkLogin_spec (b : Browser) :
    ((checkLogin b).2 = true ↔
        (∃ t, b.localStorage.getItem "access_token" = some t ∧ t ≠ "") ∧
          ∃ u, b.localStorage.getItem "user_id" = some u ∧ u ≠ "") ∧
      ((checkLogin b).2 = false → (checkLogin b).1.href = "/login") ∧
      ((checkLogin b).2 = true → (checkLogin b).1.href = b.href) ∧
      (checkLogin b).1.localStorage = b.localStorage := by
  unfold checkLogin
  cases ht : b.localStorage.getItem "access_token" with
  | none => simp [itemTruthy]
  | some t =>
    cases hu : b.localStorage.getItem "user_id" with
    | none => simp [itemTruthy]
    | some u =>
      by_cases h1 : t = "" <;> by_cases h2 : u = "" <;> simp [itemTruthy, h1, h2]

/-- C10: whatever the platform does with the `/logout` request and whatever
is stored, `logout` returns without throwing, the four session keys are
absent from local storage afterwards, and the location is `/`. -/
theorem logout_clears_session (pf : Platform) (b : Browser) :
    (logout pf b).2 = .ok () ∧
      (logout pf b).1.localStorage.getItem "access_token" = none ∧
      (logout pf b).1.localStorage.getItem "user_id" = none ∧
      (logout pf b).1.localStorage.getItem "user_name" = none ∧
      (logout pf b).1.localStorage.getItem "user_email" = none ∧
      (logout pf b).1.href = "/" := by
  simp [logout, getItem_cleared]

end Script

namespace Script

theorem apiCall_public_requests (pf : Platform) (endpoint method : String) (data : JsVal)
    (b : Browser) :
    (apiCall pf endpoint method data false b).1.requests =
      b.requests ++
        [{ url := API_BASE_URL ++ endpoint,
           options :=
             { method := some method, headers := [("Content-Type", "application/json")],
               body := if data.truthy then some (pf.stringify data) else none } }] := by
  simp only [apiCall, Bool.false_eq_true, if_false, apiCallFetch_requests]
  by_cases hd : data.truthy = true <;> simp [hd]

theorem signupResponse_requests (response : JsVal) (b : Browser) :
    (signupResponse response b).1.requests = b.requests := by
  unfold signupResponse
  cases hs : response.getProp "status" with
  | error e => rfl
  | ok status =>
    by_cases h : status.strictEqStr "success" = true
    · simp [h, showSuccess]
    · cases hm : response.getProp "message" with
      | error e => simp [h]
      | ok message =>
        cases ht : (message.or (.str "Signup failed")).toText <;> simp [h, ht, showError]

theorem jsLength_eq_length (s : String) (h : ∀ c ∈ s.data, c.toNat < 65536) :
    jsLength s = s.length := by
  obtain ⟨cs⟩ := s
  simp only [jsLength, String.length]
  simp only at h
  induction cs with
  | nil => rfl
  | cons c cs ih =>
    have hc := h c (List.mem_cons_self c cs)
    have := ih (fun d hd => h d (List.mem_cons_of_mem c hd))
    simp [hc, this, Nat.add_comm]

/-- C5, amended: the submit handler of the signup form hands the register
request (the one `signupUser` makes, and no other request) to `fetch` when
`password` equals `confirmPassword` and `password.length` is at least 6, and
hands nothing to `fetch` otherwise.  When the two differ, whatever the length, the only thing
it does is show `Passwords do not match`; when they are equal and
`password.length` is below 6 the only thing it does is show
`Password must be at least 6 characters long`.  The length is that of the
script, the number of UTF-16 code units, not the number of characters; the two
agree for a password without characters outside the basic plane. -/
theorem signupSubmit_validation (pf : Platform) (name email password confirmPassword : String)
    (b : Browser) :
    ((password = confirmPassword ∧ 6 ≤ jsLength password) →
        (signupSubmit pf name email password confirmPassword b).requests =
          b.requests ++
            [{ url := API_BASE_URL ++ "/register",
               options :=
                 { method := some "POST", headers := [("Content-Type", "application/json")],
                   body := some (pf.stringify
                     (.obj [("username", .str name), ("email", .str email),
                       ("password", .str password)])) } }]) ∧
      (¬ (password = confirmPassword ∧ 6 ≤ jsLength password) →
        (signupSubmit pf name email password confirmPassword b).requests = b.requests) ∧
      (password ≠ confirmPassword →
        signupSubmit pf name email password confirmPassword b =
          { b with ui := b.ui ++ [.showError "errorMessage" (.str "Passwords do not match")] }) ∧
      (password = confirmPassword → jsLength password < 6 →
        signupSubmit pf name email password confirmPassword b =
          { b with ui := b.ui ++
              [.showError "errorMessage"
                (.str "Password must be at least 6 characters long")] }) ∧
      ((∀ c ∈ password.data, c.toNat < 65536) → jsLength password = password.length) := by
  refine ⟨?_, ?_, ?_, ?_, jsLength_eq_length password⟩
  · rintro ⟨heq, hlen⟩
    have hlen' : ¬ jsLength password < 6 := by omega
    simp only [signupSubmit, heq, ne_eq, not_true_eq_false, if_false]
    rw [← heq]
    simp only [hlen', if_false, signupUser]
    have hreq := apiCall_public_requests pf "/register" "POST"
      (.obj [("username", .str name), ("email", .str email), ("password", .str password)])
      (toggleLoading "loading" true b)
    generalize apiCall pf "/register" "POST"
      (.obj [("username", .str name), ("email", .str email), ("password", .str password)])
      false (toggleLoading "loading" true b) = r at hreq ⊢
    obtain ⟨b1, res⟩ := r
    cases res with
    | error e => simpa [toggleLoading, showError, JsVal.truthy] using hreq
    | ok response =>
      have h2 := signupResponse_requests response b1
      rcases hr : signupResponse response b1 with ⟨b2, res2⟩
      rw [hr] at h2
      cases res2 <;> simp_all [toggleLoading, showError, JsVal.truthy]
  · intro h
    by_cases heq : password = confirmPassword
    · have hlen : jsLength password < 6 := by
        by_contra hc
        exact h ⟨heq, by omega⟩
      simp [signupSubmit, heq, showError]
      rw [← heq]
      simp [hlen]
    · simp [signupSubmit, heq, showError]
  · intro hne
    simp [signupSubmit, hne, showError]
  · intro heq hlen
    subst heq
    simp [signupSubmit, hlen, showError]

/-- C5 as stated fails: the password `😀😀😀` has three characters, fewer than
6, and equals its confirmation, yet the register request is handed to `fetch`
and the error `Password must be at least 6 characters long` is not shown,
because `password.length` counts the two UTF-16 code units of each of the
three characters. -/
theorem signupSubmit_astral_password :
    String.length "😀😀😀" = 3 ∧ jsLength "😀😀😀" = 6 ∧
      (signupSubmit unauthorizedBackend "Ann" "ann@example.com" "😀😀😀" "😀😀😀"
        loggedOut).requests =
        [{ url := API_BASE_URL ++ "/register",
           options :=
             { method := some "POST", headers := [("Content-Type", "application/json")],
               body := some (unauthorizedBackend.stringify
                 (.obj [("username", .str "Ann"), ("email", .str "ann@example.com"),
                   ("password", .str "😀😀😀")])) } }] ∧
      (signupSubmit unauthorizedBackend "Ann" "ann@example.com" "😀😀😀" "😀😀😀"
        loggedOut).ui =
        [.toggleLoading "loading" true,
          .showError "errorMessage"
            (.str "Signup failed. Please check if the server is running."),
          .toggleLoading "loading" false] :=
  ⟨rfl, rfl, rfl, rfl⟩

end Script

namespace Script

/-! ### The regular expression on a run of digits -/

theorem isWordChar_of_isDigit {c : Char} (h : c.isDigit = true) : isWordChar c = true := by
  simp [isWordChar, Char.isAlphanum, h]

theorem groupsAhead_of_noDigitAhead {tail : List Char} (h : noDigitAhead tail = true) :
    groupsAhead tail = false := by
  cases tail with
  | nil => rfl
  | cons c rest =>
    have hc : c.isDigit = false := by simpa [noDigitAhead] using h
    match rest with
    | [] => rfl
    | [_] => rfl
    | _ :: _ :: _ => simp [groupsAhead, hc]

/-- On a run of digits that ends where no digit follows, the lookahead
`(?=(\d{3})+(?!\d))` succeeds exactly when the run is not empty and its length
is a multiple of three. -/
theorem groupsAhead_digits (tail : List Char) (htail : noDigitAhead tail = true) :
    ∀ ds : List Char, (∀ c ∈ ds, c.isDigit = true) →
      groupsAhead (ds ++ tail) = decide (0 < ds.length ∧ ds.length % 3 = 0)
  | [], _ => by simp [groupsAhead_of_noDigitAhead htail]
  | [a], h => by
    have ha : a.isDigit = true := h a (by simp)
    cases tail with
    | nil => simp [groupsAhead]
    | cons c rest =>
      have hc : c.isDigit = false := by simpa [noDigitAhead] using htail
      cases rest <;> simp [groupsAhead, hc]
  | [a, b], h => by
    cases tail with
    | nil => simp [groupsAhead]
    | cons c rest =>
      have hc : c.isDigit = false := by simpa [noDigitAhead] using htail
      simp [groupsAhead, hc]
  | a :: b :: c :: rest, h => by
    have ha : a.isDigit = true := h a (by simp)
    have hb : b.isDigit = true := h b (by simp)
    have hc : c.isDigit = true := h c (by simp)
    have hrest : ∀ x ∈ rest, x.isDigit = true := fun x hx => h x (by simp [hx])
    have ih := groupsAhead_digits tail htail rest hrest
    simp only [List.cons_append, groupsAhead, ha, hb, hc, Bool.true_and, List.append_eq]
    rw [ih]
    cases rest with
    | nil => simp [htail]
    | cons x xs =>
      have hx : x.isDigit = true := hrest x (by simp)
      have hmod : (xs.length + 1 + 1 + 1 + 1) % 3 = (xs.length + 1) % 3 := by omega
      simp only [List.cons_append, noDigitAhead, hx, Bool.not_true, Bool.or_false,
        List.length_cons, hmod]
      simp

theorem matchesAt_after_digit (tail : List Char) (htail : noDigitAhead tail = true)
    {d : Char} (hd : d.isDigit = true) (ds : List Char) (hds : ∀ c ∈ ds, c.isDigit = true) :
    matchesAt (some d) (ds ++ tail) = decide (0 < ds.length ∧ ds.length % 3 = 0) := by
  cases ds with
  | nil => simp [matchesAt, groupsAhead_of_noDigitAhead htail]
  | cons a rest =>
    have ha : a.isDigit = true := hds a (by simp)
    have hg := groupsAhead_digits tail htail (a :: rest) hds
    simp only [List.cons_append] at hg
    simp only [matchesAt, nonBoundary, List.cons_append, isWordChar_of_isDigit hd,
      isWordChar_of_isDigit ha, hg]
    simp

theorem matchesAt_start (tail : List Char) (htail : noDigitAhead tail = true)
    (ds : List Char) (hds : ∀ c ∈ ds, c.isDigit = true) :
    matchesAt none (ds ++ tail) = false := by
  cases ds with
  | nil => simp [matchesAt, groupsAhead_of_noDigitAhead htail]
  | cons a rest =>
    have ha : a.isDigit = true := hds a (by simp)
    simp [matchesAt, nonBoundary, isWordChar_of_isDigit ha]

/-- After a digit, a run of digits whose length is a multiple of three is
copied in groups of three, each behind a comma. -/
theorem insertCommas_groups (tail : List Char) (htail : noDigitAhead tail = true)
    (hinert : ∀ prev, insertCommas prev tail = tail) :
    ∀ (ds : List Char) (d : Char), d.isDigit = true → (∀ c ∈ ds, c.isDigit = true) →
      ds.length % 3 = 0 →
      ∃ groups : List (List Char),
        insertCommas (some d) (ds ++ tail) =
          (groups.map (fun g => ',' :: g)).flatten ++ tail ∧
        (∀ g ∈ groups, g.length = 3) ∧ groups.flatten = ds
  | [], d, _, _, _ => ⟨[], by simp [hinert], by simp, rfl⟩
  | [_], _, _, _, hlen => by simp at hlen
  | [_, _], _, _, _, hlen => by simp at hlen
  | a :: b :: c :: rest, d, hd, hds, hlen => by
    have ha : a.isDigit = true := hds a (by simp)
    have hb : b.isDigit = true := hds b (by simp)
    have hc : c.isDigit = true := hds c (by simp)
    have hrest : ∀ x ∈ rest, x.isDigit = true := fun x hx => hds x (by simp [hx])
    have hlen3 : rest.length % 3 = 0 := by
      simp only [List.length_cons] at hlen
      omega
    obtain ⟨groups, h1, h2, h3⟩ := insertCommas_groups tail htail hinert rest c hc hrest hlen3
    have m0 : matchesAt (some d) (a :: b :: c :: (rest ++ tail)) = true := by
      have h := matchesAt_after_digit tail htail hd (a :: b :: c :: rest) hds
      simp only [List.cons_append, List.length_cons] at h
      rw [h]
      simp
      omega
    have m1 : matchesAt (some a) (b :: c :: (rest ++ tail)) = false := by
      have h := matchesAt_after_digit tail htail ha (b :: c :: rest)
        (fun x hx => hds x (List.mem_cons_of_mem _ hx))
      simp only [List.cons_append, List.length_cons] at h
      rw [h]
      simp
      omega
    have m2 : matchesAt (some b) (c :: (rest ++ tail)) = false := by
      have h := matchesAt_after_digit tail htail hb (c :: rest)
        (fun x hx => hds x (List.mem_cons_of_mem _ (List.mem_cons_of_mem _ hx)))
      simp only [List.cons_append, List.length_cons] at h
      rw [h]
      simp
      omega
    refine ⟨[a, b, c] :: groups, ?_, ?_, ?_⟩
    · simp only [List.cons_append, insertCommas, List.append_eq]
      simp only [m0, m1, m2, h1]
      simp
    · intro g hg
      rcases List.mem_cons.mp hg with rfl | hg
      · rfl
      · exact h2 g hg
    · simp [h3]

/-- The replacement on a run of digits at the start of the input that ends
where no digit follows and after which nothing is inserted: the run is split
into a first group of one to three digits and groups of three, and a comma is
put before every group but the first. -/
theorem insertCommas_number (tail : List Char) (htail : noDigitAhead tail = true)
    (hinert : ∀ prev, insertCommas prev tail = tail)
    (ds : List Char) (hne : ds ≠ []) (hds : ∀ c ∈ ds, c.isDigit = true) :
    ∃ out : List Char,
      insertCommas none (ds ++ tail) = out ++ tail ∧ GroupedInThrees ds out := by
  have hstart := matchesAt_start tail htail
  match ds, hne, hds with
  | a :: rest, _, hds =>
    have ha : a.isDigit = true := hds a (by simp)
    have hrest : ∀ x ∈ rest, x.isDigit = true := fun x hx => hds x (by simp [hx])
    have h0 : insertCommas none (a :: rest ++ tail) =
        a :: insertCommas (some a) (rest ++ tail) := by
      have := hstart (a :: rest) hds
      simp only [List.cons_append] at this
      simp [insertCommas, this]
    have hcases : rest.length % 3 = 0 ∨ rest.length % 3 = 1 ∨ rest.length % 3 = 2 := by omega
    rcases hcases with h | h | h
    · obtain ⟨groups, h1, h2, h3⟩ := insertCommas_groups tail htail hinert rest a ha hrest h
      refine ⟨a :: (groups.map (fun g => ',' :: g)).flatten, ?_, [a], groups, rfl, by simp,
        by simp, h2, by simp [h3]⟩
      rw [h0, h1]
      simp
    · match rest, hrest, h, h0 with
      | b :: rest, hrest, h, h0 =>
        have hb : b.isDigit = true := hrest b (by simp)
        have hrest2 : ∀ x ∈ rest, x.isDigit = true := fun x hx => hrest x (by simp [hx])
        have hlen : rest.length % 3 = 0 := by
          simp only [List.length_cons] at h
          omega
        have m1 : matchesAt (some a) (b :: (rest ++ tail)) = false := by
          have hm := matchesAt_after_digit tail htail ha (b :: rest) hrest
          simp only [List.cons_append, List.length_cons] at hm
          rw [hm]
          simp
          omega
        obtain ⟨groups, h1, h2, h3⟩ :=
          insertCommas_groups tail htail hinert rest b hb hrest2 hlen
        refine ⟨a :: b :: (groups.map (fun g => ',' :: g)).flatten, ?_, [a, b], groups, rfl,
          by simp, by simp, h2, by simp [h3]⟩
        rw [h0]
        simp only [List.cons_append, insertCommas, List.append_eq]
        simp only [m1, h1]
        simp
    · match rest, hrest, h, h0 with
      | [b], _, h, _ => simp at h
      | b :: c :: rest, hrest, h, h0 =>
        have hb : b.isDigit = true := hrest b (by simp)
        have hc : c.isDigit = true := hrest c (by simp)
        have hrest2 : ∀ x ∈ rest, x.isDigit = true := fun x hx => hrest x (by simp [hx])
        have hlen : rest.length % 3 = 0 := by
          simp only [List.length_cons] at h
          omega
        have m1 : matchesAt (some a) (b :: c :: (rest ++ tail)) = false := by
          have hm := matchesAt_after_digit tail htail ha (b :: c :: rest) hrest
          simp only [List.cons_append, List.length_cons] at hm
          rw [hm]
          simp
          omega
        have m2 : matchesAt (some b) (c :: (rest ++ tail)) = false := by
          have hm := matchesAt_after_digit tail htail hb (c :: rest)
            (fun x hx => hrest x (List.mem_cons_of_mem _ hx))
          simp only [List.cons_append, List.length_cons] at hm
          rw [hm]
          simp
          omega
        obtain ⟨groups, h1, h2, h3⟩ :=
          insertCommas_groups tail htail hinert rest c hc hrest2 hlen
        refine ⟨a :: b :: c :: (groups.map (fun g => ',' :: g)).flatten, ?_, [a, b, c], groups,
          rfl, by simp, by simp, h2, by simp [h3]⟩
        rw [h0]
        simp only [List.cons_append, insertCommas, List.append_eq]
        simp only [m1, m2, h1]
        simp

/-! ### The decimal notation of a natural number -/

theorem digitChar_isDigit : ∀ k, k < 10 → (Nat.digitChar k).isDigit = true := by
  decide

theorem toDigitsCore_isDigit :
    ∀ (fuel n : Nat) (ds : List Char), (∀ c ∈ ds, c.isDigit = true) →
      ∀ c ∈ Nat.toDigitsCore 10 fuel n ds, c.isDigit = true
  | 0, _, _, h => by simpa [Nat.toDigitsCore] using h
  | fuel + 1, n, ds, h => by
    have hd : (Nat.digitChar (n % 10)).isDigit = true :=
      digitChar_isDigit _ (Nat.mod_lt n (by decide))
    have hds : ∀ c ∈ Nat.digitChar (n % 10) :: ds, c.isDigit = true := by
      intro c hc
      rcases List.mem_cons.mp hc with rfl | hc
      · exact hd
      · exact h c hc
    simp only [Nat.toDigitsCore]
    split
    · exact hds
    · exact toDigitsCore_isDigit fuel (n / 10) _ hds

theorem toDigitsCore_ne_nil :
    ∀ (fuel n : Nat) (ds : List Char), fuel ≠ 0 ∨ ds ≠ [] →
      Nat.toDigitsCore 10 fuel n ds ≠ []
  | 0, _, _, h => by simpa [Nat.toDigitsCore] using h
  | fuel + 1, n, ds, _ => by
    simp only [Nat.toDigitsCore]
    split
    · simp
    · exact toDigitsCore_ne_nil fuel (n / 10) _ (Or.inr (by simp))

theorem repr_isDigit (n : Nat) : ∀ c ∈ (Nat.repr n).data, c.isDigit = true :=
  toDigitsCore_isDigit (n + 1) n [] (by simp)

theorem repr_ne_nil (n : Nat) : (Nat.repr n).data ≠ [] :=
  toDigitsCore_ne_nil (n + 1) n [] (Or.inl (by simp))

/-! ### What the replacement keeps -/

theorem insertCommas_filter (s : List Char) :
    ∀ prev, (insertCommas prev s).filter (fun c => c != ',') = s.filter (fun c => c != ',') := by
  induction s with
  | nil =>
    intro prev
    simp only [insertCommas]
    split <;> simp
  | cons c rest ih =>
    intro prev
    simp only [insertCommas]
    split <;> simp [List.filter_cons, ih]

theorem ne_comma_of_isDigit {c : Char} (h : c.isDigit = true) : (c != ',') = true := by
  rw [bne_iff_ne]
  rintro rfl
  exact absurd h (by decide)

theorem ne_point_of_isDigit {c : Char} (h : c.isDigit = true) : (c != '.') = true := by
  rw [bne_iff_ne]
  rintro rfl
  exact absurd h (by decide)

theorem GroupedInThrees.eq_of_length_le {digits out : List Char}
    (h : GroupedInThrees digits out) (hlen : digits.length ≤ 3) : out = digits := by
  obtain ⟨first, groups, hout, h1, _, hg, hjoin⟩ := h
  cases groups with
  | nil => simpa [hout] using hjoin
  | cons g gs =>
    have h3 : g.length = 3 := hg g (by simp)
    have : digits.length = first.length + (g.length + gs.flatten.length) := by
      rw [← hjoin]
      simp
    omega

theorem GroupedInThrees.mem {digits out : List Char} (h : GroupedInThrees digits out) :
    ∀ c ∈ out, c ∈ digits ∨ c = ',' := by
  obtain ⟨first, groups, hout, _, _, _, hjoin⟩ := h
  intro c hc
  rw [hout] at hc
  rw [← hjoin]
  rcases List.mem_append.mp hc with hc | hc
  · exact Or.inl (List.mem_append_left _ hc)
  · obtain ⟨l, hl, hcl⟩ := List.mem_flatten.mp hc
    obtain ⟨g, hg, rfl⟩ := List.mem_map.mp hl
    rcases List.mem_cons.mp hcl with rfl | hcg
    · exact Or.inr rfl
    · exact Or.inl (List.mem_append_right _ (List.mem_flatten.mpr ⟨g, hg, hcg⟩))

theorem dropWhile_append_of_all {p : Char → Bool} :
    ∀ (l r : List Char), (∀ c ∈ l, p c = true) → (l ++ r).dropWhile p = r.dropWhile p
  | [], _, _ => rfl
  | c :: l, r, h => by
    have hc : p c = true := h c (by simp)
    simp only [List.cons_append, List.dropWhile_cons, hc, if_true]
    exact dropWhile_append_of_all l r (fun x hx => h x (by simp [hx]))

/-- C7: for every natural number `n` whose `toString` is its plain decimal
notation, `Nat.repr n`, `formatNumber(n)` is that notation in comma-separated
groups of digits, the first of one to three digits and every later one of
exactly three; deleting the commas gives the decimal notation back; and a
number below 1000 is returned unchanged. -/
theorem formatNumber_integer (n : Nat) :
    GroupedInThrees (Nat.repr n).data (formatNumber Nat.repr n).data ∧
      (∀ c ∈ (Nat.repr n).data, c.isDigit = true) ∧
      (formatNumber Nat.repr n).data.filter (fun c => c != ',') = (Nat.repr n).data ∧
      (n < 1000 → formatNumber Nat.repr n = Nat.repr n) := by
  have hdig := repr_isDigit n
  obtain ⟨out, hout, hgrouped⟩ :=
    insertCommas_number [] rfl (fun prev => by simp [insertCommas, matchesAt, groupsAhead])
      (Nat.repr n).data (repr_ne_nil n) hdig
  simp only [List.append_nil] at hout
  have hdata : (formatNumber Nat.repr n).data = out := by
    simp [formatNumber, replaceThousands, hout]
  refine ⟨hdata ▸ hgrouped, hdig, ?_, ?_⟩
  · simp only [formatNumber, replaceThousands, insertCommas_filter]
    exact List.filter_eq_self.mpr (fun c hc => ne_comma_of_isDigit (hdig c hc))
  · intro hn
    have hlen : (Nat.repr n).data.length ≤ 3 :=
      Nat.repr_length n 3 (by decide) (by simpa using hn)
    apply String.ext
    rw [hdata]
    exact hgrouped.eq_of_length_le hlen

/-- C8: when `num.toFixed(2)` is the digits `I`, a point and the two digits
`f1 f2`, `formatCurrency(num)` is `$`, then `I` in comma-separated groups (the
first of one to three digits, every later one of exactly three), then the
point and the same two digits; from its first point on the result is the
point and `f1 f2`, and no comma comes after the point. -/
theorem formatCurrency_fixed {ν : Type} (toFixed : ν → Nat → String) (num : ν)
    (I : List Char) (f1 f2 : Char)
    (hne : I ≠ []) (hI : ∀ c ∈ I, c.isDigit = true)
    (hf1 : f1.isDigit = true) (hf2 : f2.isDigit = true)
    (hfixed : toFixed num 2 = String.mk (I ++ ['.', f1, f2])) :
    ∃ grouped : List Char,
      GroupedInThrees I grouped ∧
      formatCurrency toFixed num = String.mk ('$' :: grouped ++ ['.', f1, f2]) ∧
      (formatCurrency toFixed num).data.dropWhile (fun c => c != '.') = ['.', f1, f2] ∧
      ',' ∉ (formatCurrency toFixed num).data.dropWhile (fun c => c != '.') := by
  have hinert : ∀ prev, insertCommas prev ['.', f1, f2] = ['.', f1, f2] := by
    intro prev
    simp [insertCommas, matchesAt, groupsAhead]
  obtain ⟨out, hout, hgrouped⟩ := insertCommas_number ['.', f1, f2] rfl hinert I hne hI
  have hval : formatCurrency toFixed num = String.mk ('$' :: out ++ ['.', f1, f2]) := by
    apply String.ext
    simp [formatCurrency, formatNumber, replaceThousands, hfixed, hout]
  have hafter : (formatCurrency toFixed num).data.dropWhile (fun c => c != '.') =
      ['.', f1, f2] := ?_
  · refine ⟨out, hgrouped, hval, hafter, ?_⟩
    rw [hafter]
    intro hmem
    simp only [List.mem_cons, List.mem_singleton, List.not_mem_nil, or_false] at hmem
    rcases hmem with h | h | h
    · exact absurd h (by decide)
    · exact absurd (ne_comma_of_isDigit hf1) (by simp [← h])
    · exact absurd (ne_comma_of_isDigit hf2) (by simp [← h])
  rw [hval]
  have hall : ∀ c ∈ '$' :: out, (c != '.') = true := by
    intro c hc
    rcases List.mem_cons.mp hc with rfl | hc
    · decide
    · rcases hgrouped.mem c hc with hd | rfl
      · exact ne_point_of_isDigit (hI c hd)
      · decide
  show (('$' :: out) ++ ['.', f1, f2]).dropWhile (fun c => c != '.') = ['.', f1, f2]
  rw [dropWhile_append_of_all _ _ hall]
  simp

theorem formatCurrency_fixed_witness :
    ∃ grouped : List Char,
      GroupedInThrees "1234567".data grouped ∧
      formatCurrency fixedOfCents 123456789 = String.mk ('$' :: grouped ++ ['.', '8', '9']) ∧
      (formatCurrency fixedOfCents 123456789).data.dropWhile (fun c => c != '.') =
        ['.', '8', '9'] ∧
      ',' ∉ (formatCurrency fixedOfCents 123456789).data.dropWhile (fun c => c != '.') :=
  formatCurrency_fixed fixedOfCents 123456789 "1234567".data '8' '9' (by decide) (by decide)
    (by decide) (by decide) (by rfl)

end Script

namespace Admin

/-! ### `loadUsers` -/

theorem getProp_isOk (v : JsVal) (key : String) :
    (∃ x, v.getProp key = .ok x) ↔ v.isNullish = false := by
  cases v <;> simp [JsVal.getProp, JsVal.isNullish]

theorem getProp_field (v : JsVal) (key : String) (h : v.isNullish = false) :
    v.getProp key = .ok (field v key) := by
  cases v <;> simp_all [JsVal.getProp, JsVal.isNullish, field]

theorem getProp_nullish (v : JsVal) (key : String) (h : v.isNullish = true) :
    v.getProp key = .error (.native "TypeError") := by
  cases v <;> simp_all [JsVal.getProp, JsVal.isNullish]

/-- Building the text of a row throws, a `TypeError`, exactly on the users
`displayUsers` cannot render. -/
theorem userRowText_eq (u : JsVal) :
    userRowText u = if rendersAsUser u then .ok () else .error (.native "TypeError") := by
  cases hn : u.isNullish with
  | true => simp [userRowText, getProp_nullish u _ hn, rendersAsUser, hn, bind, Except.bind]
  | false =>
    simp only [userRowText, getProp_field u _ hn, JsVal.toText, rendersAsUser, hn, bind,
      Except.bind]
    cases (field u "id").converts <;> cases (field u "username").converts <;>
      cases (field u "email").converts <;> cases (field u "role").converts <;>
      cases (field u "created_at").converts <;>
      cases ((field u "campaigns_count").or (.num 0)).converts <;> simp

/-- The loop of `displayUsers` writes nothing but the rows of the table. -/
theorem appendUserRows_frame :
    ∀ (xs : List JsVal) (p : AdminPage),
      ∃ rows, (appendUserRows xs p).1 = { p with usersTableBody := p.usersTableBody ++ rows }
  | [], p => ⟨[], by simp [appendUserRows]⟩
  | x :: rest, p => by
    unfold appendUserRows
    cases hx : userRowText x with
    | error e => exact ⟨[], by simp⟩
    | ok v =>
      obtain ⟨rows, h⟩ := appendUserRows_frame rest
        { p with usersTableBody := p.usersTableBody ++ [x] }
      exact ⟨x :: rows, by simp [h]⟩

theorem appendUserRows_ok :
    ∀ (xs : List JsVal) (p : AdminPage),
      (appendUserRows xs p).2 = .ok () ↔ xs.all rendersAsUser = true
  | [], p => by simp [appendUserRows]
  | x :: rest, p => by
    unfold appendUserRows
    rw [userRowText_eq]
    cases hx : rendersAsUser x with
    | false => simp [hx]
    | true =>
      have ih := appendUserRows_ok rest { p with usersTableBody := p.usersTableBody ++ [x] }
      simpa [hx] using ih

theorem appendUserRows_records :
    ∀ (xs : List JsVal) (p : AdminPage), xs.all rendersAsUser = true →
      appendUserRows xs p = ({ p with usersTableBody := p.usersTableBody ++ xs }, .ok ())
  | [], p, _ => by simp [appendUserRows]
  | x :: rest, p, h => by
    simp only [List.all_cons, Bool.and_eq_true] at h
    have ih := appendUserRows_records rest
      { p with usersTableBody := p.usersTableBody ++ [x] } h.2
    simp only [appendUserRows, userRowText_eq, h.1, if_true, ih]
    simp

/-- The function `displayUsers` writes its argument into the log, the rows and
the count, and nothing else. -/
theorem displayUsers_frame (users : JsVal) (p : AdminPage) :
    ∃ rows n, (displayUsers users p).1 =
      { p with displayed := p.displayed ++ [users], usersTableBody := rows, totalUsers := n } := by
  unfold displayUsers
  cases users with
  | arr xs =>
    obtain ⟨rows, h⟩ := appendUserRows_frame xs
      { p with displayed := p.displayed ++ [.arr xs], usersTableBody := [] }
    rcases hr : appendUserRows xs
      { p with displayed := p.displayed ++ [.arr xs], usersTableBody := [] } with ⟨q, res⟩
    rw [hr] at h
    simp only at h
    cases res with
    | error e => exact ⟨rows, p.totalUsers, by simp [hr, h]⟩
    | ok u => exact ⟨rows, xs.length, by simp [hr, h]⟩
  | _ => exact ⟨[], p.totalUsers, rfl⟩

theorem displayUsers_ok (users : JsVal) (p : AdminPage) :
    (displayUsers users p).2 = .ok () ↔ isUserArray users = true := by
  unfold displayUsers
  cases users with
  | arr xs =>
    have h := appendUserRows_ok xs
      { p with displayed := p.displayed ++ [.arr xs], usersTableBody := [] }
    rcases hr : appendUserRows xs
      { p with displayed := p.displayed ++ [.arr xs], usersTableBody := [] } with ⟨q, res⟩
    rw [hr] at h
    cases res <;> simpa [hr, isUserArray] using h
  | _ => simp [isUserArray]

theorem displayUsers_records (xs : List JsVal) (p : AdminPage)
    (h : xs.all rendersAsUser = true) :
    displayUsers (.arr xs) p =
      ({ p with displayed := p.displayed ++ [.arr xs], usersTableBody := xs,
                totalUsers := xs.length }, .ok ()) := by
  simp [displayUsers, appendUserRows_records _ _ h]

theorem campaignUsers_ok :
    ∀ cs : List JsVal, cs.all (fun c => !c.isNullish && (field c "user").converts) = true →
      ∃ us, campaignUsers cs = .ok us ∧ ∀ u ∈ us, u.converts = true
  | [], _ => ⟨[], rfl, by simp⟩
  | c :: rest, h => by
    simp only [List.all_cons, Bool.and_eq_true, Bool.not_eq_true'] at h
    obtain ⟨us, hus, hall⟩ := campaignUsers_ok rest h.2
    refine ⟨field c "user" :: us, by simp [campaignUsers, getProp_field c _ h.1.1, hus], ?_⟩
    intro u hu
    rcases List.mem_cons.mp hu with rfl | hu
    · exact h.1.2
    · exact hall u hu

theorem mem_uniqueValues :
    ∀ (xs seen : List JsVal) (u : JsVal), u ∈ uniqueValues seen xs → u ∈ xs
  | [], _, u, h => by simp [uniqueValues] at h
  | x :: rest, seen, u, h => by
    unfold uniqueValues at h
    split at h
    · exact List.mem_cons_of_mem _ (mem_uniqueValues rest seen u h)
    · rcases List.mem_cons.mp h with rfl | h
      · exact List.mem_cons_self _ _
      · exact List.mem_cons_of_mem _ (mem_uniqueValues rest _ u h)

/-- The loop of `updateUserFilter` writes nothing but the options. -/
theorem appendUserOptions_frame :
    ∀ (us : List JsVal) (p : AdminPage),
      ∃ options, (appendUserOptions us p).1 =
        { p with campaignUserFilter := p.campaignUserFilter ++ options }
  | [], p => ⟨[], by simp [appendUserOptions]⟩
  | u :: rest, p => by
    unfold appendUserOptions
    cases hu : u.toText with
    | error e => exact ⟨[], by simp⟩
    | ok v =>
      obtain ⟨options, h⟩ := appendUserOptions_frame rest
        { p with campaignUserFilter := p.campaignUserFilter ++ [u] }
      exact ⟨u :: options, by simp [h]⟩

theorem appendUserOptions_ok :
    ∀ (us : List JsVal) (p : AdminPage), (∀ u ∈ us, u.converts = true) →
      (appendUserOptions us p).2 = .ok ()
  | [], p, _ => by simp [appendUserOptions]
  | u :: rest, p, h => by
    have hu : u.converts = true := h u (List.mem_cons_self _ _)
    simp only [appendUserOptions, JsVal.toText, hu, if_true]
    exact appendUserOptions_ok rest _ (fun x hx => h x (List.mem_cons_of_mem _ hx))

/-- The function `updateUserFilter` writes nothing but the options. -/
theorem updateUserFilter_frame (p : AdminPage) :
    ∃ options, (updateUserFilter p).1 = { p with campaignUserFilter := options } := by
  unfold updateUserFilter
  split
  · split
    · exact ⟨p.campaignUserFilter, rfl⟩
    · rename_i users _
      obtain ⟨options, h⟩ := appendUserOptions_frame (uniqueValues [] users)
        { p with campaignUserFilter := [] }
      exact ⟨options, by simp [h]⟩
  · exact ⟨p.campaignUserFilter, rfl⟩

theorem updateUserFilter_ok (p : AdminPage) (h : isCampaignArray p.allCampaigns = true) :
    (updateUserFilter p).2 = .ok () := by
  cases hc : p.allCampaigns with
  | arr cs =>
    rw [hc] at h
    obtain ⟨us, hus, hall⟩ := campaignUsers_ok cs (by simpa [isCampaignArray] using h)
    simp only [updateUserFilter, hc, hus]
    exact appendUserOptions_ok _ _ (fun u hu => hall u (mem_uniqueValues us [] u hu))
  | _ => simp [hc, isCampaignArray] at h

/-- The statements `displayUsers(allUsers); updateUserFilter();` write the
log, the rows, the count and the options, and nothing else. -/
theorem showAllUsers_frame (p : AdminPage) :
    ∃ rows n options, (showAllUsers p).1 =
      { p with displayed := p.displayed ++ [p.allUsers], usersTableBody := rows,
               totalUsers := n, campaignUserFilter := options } := by
  obtain ⟨rows, n, hd⟩ := displayUsers_frame p.allUsers p
  unfold showAllUsers
  rcases hr : displayUsers p.allUsers p with ⟨q, res⟩
  rw [hr] at hd
  simp only at hd
  cases res with
  | error e => exact ⟨rows, n, p.campaignUserFilter, by simp [hd]⟩
  | ok u =>
    obtain ⟨options, hu⟩ := updateUserFilter_frame q
    subst hd
    exact ⟨rows, n, options, by rw [hu]⟩

/-- After `displayUsers(allUsers); updateUserFilter();` on a page whose
`allCampaigns` is an array of campaigns, the globals are as before, and
nothing is thrown exactly when `allUsers` is an array of users. -/
theorem showAllUsers_spec (p : AdminPage) (h : isCampaignArray p.allCampaigns = true) :
    ((showAllUsers p).2 = .ok () ↔ isUserArray p.allUsers = true) ∧
      (showAllUsers p).1.allUsers = p.allUsers ∧
      (showAllUsers p).1.allCampaigns = p.allCampaigns := by
  obtain ⟨rows, n, options, hframe⟩ := showAllUsers_frame p
  refine ⟨?_, by rw [hframe], by rw [hframe]⟩
  obtain ⟨rows', n', hd⟩ := displayUsers_frame p.allUsers p
  have hok := displayUsers_ok p.allUsers p
  unfold showAllUsers
  rcases hr : displayUsers p.allUsers p with ⟨q, res⟩
  rw [hr] at hd hok
  simp only at hd hok
  cases res with
  | error e =>
    simp only
    rw [← hok]
  | ok u =>
    have hq := updateUserFilter_ok q (by rw [hd]; exact h)
    simp only
    rw [← hok]
    simp [hq]

theorem rendersAsUser_toJs (u : User) : rendersAsUser u.toJs = true := by
  simp [rendersAsUser, User.toJs, JsVal.isNullish, field, List.lookup, JsVal.converts,
    JsVal.or]
  split <;> rfl

theorem all_users_records (users : List User) :
    (users.map User.toJs).all rendersAsUser = true := by
  simp [List.all_eq_true, rendersAsUser_toJs]

theorem isUserArray_generateMockUsers : isUserArray generateMockUsers = true := by
  simp [isUserArray, generateMockUsers, all_users_records]

/-- The `catch` block of `loadUsers` does not throw when `allCampaigns` is an
array of campaigns, and leaves the mock list in `allUsers`. -/
theorem loadUsers_catch (q : AdminPage) (h : isCampaignArray q.allCampaigns = true) :
    (showAllUsers { q with allUsers := generateMockUsers }).2 = .ok () ∧
      (showAllUsers { q with allUsers := generateMockUsers }).1.allUsers = generateMockUsers := by
  have hs := showAllUsers_spec { q with allUsers := generateMockUsers } h
  exact ⟨hs.1.mpr isUserArray_generateMockUsers, hs.2.1⟩

/-- The function `loadUsers` is the logging of its request followed by the
step `loadUsersSettle`. -/
theorem loadUsers_eq_settle (pf : Platform) (p : AdminPage) :
    loadUsers pf p =
      loadUsersSettle pf (usersRequest p)
        { p with requests := p.requests ++ [usersRequest p] } := rfl

/-- What `loadUsers` makes of the result of its `try` block. -/
theorem loadUsersSettle_of_resume (pf : Platform) (request : Request) (p q : AdminPage)
    (res : Except Thrown Unit)
    (htry : loadUsersResume pf request p = (q, res))
    (hq : isCampaignArray q.allCampaigns = true) :
    (loadUsersSettle pf request p).2 = .ok () ∧
      (∀ u, res = .ok u → (loadUsersSettle pf request p).1.allUsers = q.allUsers) ∧
      (∀ e, res = .error e → (loadUsersSettle pf request p).1.allUsers = generateMockUsers) := by
  cases res with
  | ok u =>
    simp only [loadUsersSettle, htry]
    simp
  | error e =>
    have hc := loadUsers_catch q hq
    simp only [loadUsersSettle, htry]
    exact ⟨hc.1, by simp, fun _ _ => hc.2⟩

/-- The `try` block of `loadUsers` once `allUsers` has been assigned. -/
theorem loadUsersSettle_of_assigned (pf : Platform) (request : Request) (p q : AdminPage)
    (htry : loadUsersResume pf request p = showAllUsers q)
    (hq : isCampaignArray q.allCampaigns = true) :
    (loadUsersSettle pf request p).2 = .ok () ∧
      (loadUsersSettle pf request p).1.allUsers =
        if isUserArray q.allUsers then q.allUsers else generateMockUsers := by
  have hs := showAllUsers_spec q hq
  rcases hr : showAllUsers q with ⟨q', res⟩
  rw [hr] at hs htry
  simp only at hs
  have h := loadUsersSettle_of_resume pf request p q' res htry (by rw [hs.2.2]; exact hq)
  refine ⟨h.1, ?_⟩
  cases res with
  | ok u =>
    have hrec : isUserArray q.allUsers = true := hs.1.mp (by cases u; rfl)
    rw [h.2.1 u rfl, hs.2.1]
    simp [hrec]
  | error e =>
    have hrec : ¬ isUserArray q.allUsers = true := fun hc => by
      have := hs.1.mpr hc
      simp at this
    rw [h.2.2 e rfl]
    simp [hrec]

theorem truthy_of_isUserArray {v : JsVal} (h : isUserArray v = true) : v.truthy = true := by
  cases v <;> simp_all [isUserArray, JsVal.truthy]

theorem assigned_users (users : JsVal) :
    (if isUserArray (users.or generateMockUsers) then users.or generateMockUsers
      else generateMockUsers) =
      if isUserArray users then users else generateMockUsers := by
  by_cases h : isUserArray users = true
  · simp [JsVal.or, truthy_of_isUserArray h, h]
  · by_cases ht : users.truthy = true
    · simp [JsVal.or, ht, h]
    · simp [JsVal.or, ht, h]

/-- The value `loadUsers` leaves in `allUsers` after the answer has arrived. -/
theorem loadUsersSettle_allUsers (pf : Platform) (request : Request) (p : AdminPage)
    (hcampaigns : isCampaignArray p.allCampaigns = true) :
    (loadUsersSettle pf request p).2 = .ok () ∧
      (loadUsersSettle pf request p).1.allUsers =
        match pf.fetch request with
        | .rejected _ => generateMockUsers
        | .resolved response =>
          if response.ok then
            match response.json with
            | .error _ => generateMockUsers
            | .ok data =>
              match data.getProp "users" with
              | .error _ => generateMockUsers
              | .ok users => if isUserArray users then users else generateMockUsers
          else generateMockUsers := by
  cases hf : pf.fetch request with
  | rejected e =>
    have htry : loadUsersResume pf request p = (p, .error e) := by
      simp [loadUsersResume, hf]
    have h := loadUsersSettle_of_resume pf request p _ _ htry hcampaigns
    exact ⟨h.1, h.2.2 e rfl⟩
  | resolved r =>
    by_cases hok : r.ok = true
    · cases hj : r.json with
      | error e =>
        have htry : loadUsersResume pf request p = (p, .error e) := by
          simp [loadUsersResume, hf, hok, hj]
        have h := loadUsersSettle_of_resume pf request p _ _ htry hcampaigns
        simpa [hok, hj] using And.intro h.1 (h.2.2 e rfl)
      | ok data =>
        cases hu : data.getProp "users" with
        | error e =>
          have htry : loadUsersResume pf request p = (p, .error e) := by
            simp [loadUsersResume, hf, hok, hj, hu]
          have h := loadUsersSettle_of_resume pf request p _ _ htry hcampaigns
          simpa [hok, hj, hu] using And.intro h.1 (h.2.2 e rfl)
        | ok users =>
          have htry : loadUsersResume pf request p =
              showAllUsers { p with allUsers := users.or generateMockUsers } := by
            simp [loadUsersResume, hf, hok, hj, hu]
          have h := loadUsersSettle_of_assigned pf request p _ htry hcampaigns
          simp only [assigned_users] at h
          simpa [hok, hj, hu] using h
    · have htry : loadUsersResume pf request p =
          showAllUsers { p with allUsers := generateMockUsers } := by
        simp [loadUsersResume, hf, hok]
      have h := loadUsersSettle_of_assigned pf request p _ htry hcampaigns
      simpa [hok, isUserArray_generateMockUsers] using h

/-- The value `loadUsers` leaves in `allUsers`, by the outcome of the request. -/
theorem loadUsers_allUsers (pf : Platform) (p : AdminPage)
    (hcampaigns : isCampaignArray p.allCampaigns = true) :
    (loadUsers pf p).2 = .ok () ∧
      (loadUsers pf p).1.allUsers =
        match pf.fetch (usersRequest p) with
        | .rejected _ => generateMockUsers
        | .resolved response =>
          if response.ok then
            match response.json with
            | .error _ => generateMockUsers
            | .ok data =>
              match data.getProp "users" with
              | .error _ => generateMockUsers
              | .ok users => if isUserArray users then users else generateMockUsers
          else generateMockUsers := by
  rw [loadUsers_eq_settle]
  exact loadUsersSettle_allUsers pf (usersRequest p) _ hcampaigns

/-- C6, amended: on a page whose `allCampaigns` is an array of campaigns (no
entry `null`, each `user` convertible to a string), `loadUsers` returns
without throwing whatever the outcome of the `/admin/users` request;
afterwards `allUsers` is the `users` field of the body when the response is
OK, its body parses, and that field is an array of users (the empty array
included): an array no entry of which is `null` and in each entry of which
`id`, `username`, `email`, `role`, `created_at` and `campaigns_count || 0`
convert to strings.  In every other case `allUsers` is the four records of
`generateMockUsers()`. -/
theorem loadUsers_fallback (pf : Platform) (p : AdminPage)
    (hcampaigns : isCampaignArray p.allCampaigns = true) :
    (loadUsers pf p).2 = .ok () ∧
      (∀ response data users, pf.fetch (usersRequest p) = .resolved response →
        response.ok = true → response.json = .ok data → data.getProp "users" = .ok users →
        isUserArray users = true → (loadUsers pf p).1.allUsers = users) ∧
      ((∀ response data users, pf.fetch (usersRequest p) = .resolved response →
          response.ok = true → response.json = .ok data → data.getProp "users" = .ok users →
          isUserArray users = false) →
        (loadUsers pf p).1.allUsers = .arr (mockUsers.map User.toJs)) := by
  obtain ⟨hok, hall⟩ := loadUsers_allUsers pf p hcampaigns
  refine ⟨hok, ?_, ?_⟩
  · intro response data users hf hr hj hu hrec
    rw [hall, hf]
    simp [hr, hj, hu, hrec]
  · intro hother
    rw [hall]
    cases hf : pf.fetch (usersRequest p) with
    | rejected e => rfl
    | resolved r =>
      by_cases hr : r.ok = true
      · cases hj : r.json with
        | error e => simp [hr, hj, generateMockUsers]
        | ok data =>
          cases hu : data.getProp "users" with
          | error e => simp [hr, hj, hu, generateMockUsers]
          | ok users =>
            have := hother r data users hf hr hj hu
            simp [hr, hj, hu, this, generateMockUsers]
      · simp [hr, generateMockUsers]

theorem loadUsers_fallback_witness :
    isCampaignArray freshPage.allCampaigns = true ∧
      (loadUsers (backendAnswering 200 (.obj [("users", .arr [.obj [("id", .num 9)]])]))
        freshPage).2 = .ok () ∧
      (loadUsers (backendAnswering 200 (.obj [("users", .arr [.obj [("id", .num 9)]])]))
        freshPage).1.allUsers = .arr [.obj [("id", .num 9)]] ∧
      (loadUsers (backendAnswering 200 (.obj [("users", .arr [])])) freshPage).1.allUsers =
        .arr [] :=
  ⟨rfl,
    (loadUsers_fallback (backendAnswering 200 (.obj [("users", .arr [.obj [("id", .num 9)]])]))
      freshPage rfl).1,
    (loadUsers_fallback (backendAnswering 200 (.obj [("users", .arr [.obj [("id", .num 9)]])]))
      freshPage rfl).2.1 _ _ _ rfl rfl rfl rfl rfl,
    (loadUsers_fallback (backendAnswering 200 (.obj [("users", .arr [])]))
      freshPage rfl).2.1 _ _ _ rfl rfl rfl rfl rfl⟩

/-- C6 as stated fails: the backend answers 200 with the body
`{"users": null}`, in which the field `users` is present, and afterwards
`allUsers` is not the value of that field but the mock list. -/
theorem loadUsers_null_users_field :
    (backendAnswering 200 (.obj [("users", .null)])).fetch (usersRequest freshPage) =
        .resolved { status := 200, json := .ok (.obj [("users", .null)]) } ∧
      Response.ok { status := 200, json := .ok (.obj [("users", .null)]) } = true ∧
      List.lookup "users" [("users", JsVal.null)] = some JsVal.null ∧
      (loadUsers (backendAnswering 200 (.obj [("users", .null)])) freshPage).1.allUsers =
        generateMockUsers ∧
      (loadUsers (backendAnswering 200 (.obj [("users", .null)])) freshPage).1.allUsers ≠
        JsVal.null := by
  refine ⟨rfl, rfl, rfl, rfl, ?_⟩
  intro h
  have hmock : (loadUsers (backendAnswering 200 (.obj [("users", .null)])) freshPage).1.allUsers =
      generateMockUsers := rfl
  rw [hmock] at h
  exact JsVal.noConfusion h

/-- The same with a field that is present and truthy but not an array: the
body `{"users": {"total": 0}}` is assigned to `allUsers`, `displayUsers`
throws on it, and the `catch` block puts the mock list in its place. -/
theorem loadUsers_object_users_field :
    (loadUsers (backendAnswering 200 (.obj [("users", .obj [("total", .num 0)])]))
        freshPage).1.allUsers = generateMockUsers ∧
      (loadUsers (backendAnswering 200 (.obj [("users", .obj [("total", .num 0)])]))
        freshPage).1.displayed =
        [.obj [("total", .num 0)], generateMockUsers] :=
  ⟨rfl, rfl⟩

/-- The same with an array one entry of which cannot be written into a table
row: in the body `{"users": [{"id": {"toString": 1}}]}` the `id` has an own
field `toString` that is not a function, the conversion of `user.id` to a
string throws a `TypeError` in `displayUsers`, and the `catch` block puts the
mock list in place of the array. -/
theorem loadUsers_unconvertible_id :
    isUserArray (.arr [.obj [("id", .obj [("toString", .num 1)])]]) = false ∧
      (displayUsers (.arr [.obj [("id", .obj [("toString", .num 1)])]]) freshPage).2 =
        .error (.native "TypeError") ∧
      (loadUsers
        (backendAnswering 200 (.obj [("users", .arr [.obj [("id", .obj [("toString", .num 1)])]])]))
        freshPage).1.allUsers = generateMockUsers ∧
      (loadUsers
        (backendAnswering 200 (.obj [("users", .arr [.obj [("id", .obj [("toString", .num 1)])]])]))
        freshPage).1.displayed =
        [.arr [.obj [("id", .obj [("toString", .num 1)])]], generateMockUsers] :=
  ⟨rfl, rfl, rfl, rfl⟩

end Admin

namespace Admin

/-! ### `filterUsers` -/

theorem includes_iff (hay needle : String) :
    includes hay needle = true ↔ needle.data <:+: hay.data := by
  simp only [includes, List.any_eq_true, List.mem_tails, List.isPrefixOf_iff_prefix]
  constructor
  · rintro ⟨t, hsuf, hpre⟩
    exact List.infix_iff_prefix_suffix.mpr ⟨t, hpre, hsuf⟩
  · intro h
    obtain ⟨t, hpre, hsuf⟩ := List.infix_iff_prefix_suffix.mp h
    exact ⟨t, hsuf, hpre⟩

theorem filterUsersCallback_user (pf : Platform) (search roleFilter : String) (u : User) :
    filterUsersCallback pf (pf.toLowerCase search) roleFilter u.toJs =
      .ok (decide (MatchesFilter pf search roleFilter u)) := by
  have hname : u.toJs.getProp "username" = .ok (.str u.username) := by
    simp [User.toJs, JsVal.getProp, List.lookup]
  have hemail : u.toJs.getProp "email" = .ok (.str u.email) := by
    simp [User.toJs, JsVal.getProp, List.lookup]
  have hrole : u.toJs.getProp "role" = .ok (.str u.role) := by
    simp [User.toJs, JsVal.getProp, List.lookup]
  simp only [filterUsersCallback, hname, hemail, hrole, lowerIncludes, JsVal.strictEqStr]
  by_cases h1 : includes (pf.toLowerCase u.username) (pf.toLowerCase search) = true
  · have h1' := (includes_iff _ _).mp h1
    by_cases hr : roleFilter = "all"
    · simp [h1, hr, MatchesFilter, h1']
    · simp [h1, hr, MatchesFilter, h1', beq_eq_decide]
  · have h1' : ¬ (pf.toLowerCase search).data <:+: (pf.toLowerCase u.username).data :=
      fun hc => h1 ((includes_iff _ _).mpr hc)
    by_cases h2 : includes (pf.toLowerCase u.email) (pf.toLowerCase search) = true
    · have h2' := (includes_iff _ _).mp h2
      by_cases hr : roleFilter = "all"
      · simp [h1, h2, hr, MatchesFilter, h2']
      · simp [h1, h2, hr, MatchesFilter, h2', beq_eq_decide]
    · have h2' : ¬ (pf.toLowerCase search).data <:+: (pf.toLowerCase u.email).data :=
        fun hc => h2 ((includes_iff _ _).mpr hc)
      by_cases hr : roleFilter = "all"
      · simp [h1, h2, hr, MatchesFilter, h1', h2']
      · simp [h1, h2, hr, MatchesFilter, h1', h2']

theorem filterElements_users (pf : Platform) (search roleFilter : String) :
    ∀ users : List User,
      filterElements (filterUsersCallback pf (pf.toLowerCase search) roleFilter)
          (users.map User.toJs) =
        .ok ((users.filter (fun u => decide (MatchesFilter pf search roleFilter u))).map
          User.toJs)
  | [] => rfl
  | u :: rest => by
    have ih := filterElements_users pf search roleFilter rest
    simp only [List.map_cons, filterElements, filterUsersCallback_user, ih, List.filter_cons]
    by_cases h : MatchesFilter pf search roleFilter u <;> simp [h]

/-- C9: when `allUsers` is a list of user records, `filterUsers` returns
without throwing and passes to `displayUsers`, which renders it, exactly the
sub-list of `allUsers`, in the original order, of the users whose lower-cased
username or lower-cased email contains the lower-cased search string and
whose role is the role filter or the role filter is `all`; `allUsers` is as
before; and with an empty search string (which `toLowerCase` leaves empty) and
the role filter `all` every user is displayed. -/
theorem filterUsers_spec (pf : Platform) (p : AdminPage) (users : List User)
    (hall : p.allUsers = .arr (users.map User.toJs)) :
    (filterUsers pf p).2 = .ok () ∧
      (filterUsers pf p).1.displayed =
        p.displayed ++
          [.arr ((users.filter
            (fun u => decide (MatchesFilter pf p.userSearch p.userRoleFilter u))).map
              User.toJs)] ∧
      (filterUsers pf p).1.usersTableBody =
        (users.filter
          (fun u => decide (MatchesFilter pf p.userSearch p.userRoleFilter u))).map User.toJs ∧
      (users.filter
        (fun u => decide (MatchesFilter pf p.userSearch p.userRoleFilter u))).Sublist users ∧
      (filterUsers pf p).1.allUsers = p.allUsers ∧
      (p.userSearch = "" → p.userRoleFilter = "all" → pf.toLowerCase "" = "" →
        (filterUsers pf p).1.usersTableBody = users.map User.toJs) := by
  have hrun : filterUsers pf p =
      ({ p with
          displayed := p.displayed ++
            [.arr ((users.filter
              (fun u => decide (MatchesFilter pf p.userSearch p.userRoleFilter u))).map
                User.toJs)],
          usersTableBody :=
            (users.filter
              (fun u => decide (MatchesFilter pf p.userSearch p.userRoleFilter u))).map
                User.toJs,
          totalUsers :=
            (users.filter
              (fun u => decide (MatchesFilter pf p.userSearch p.userRoleFilter u))).length },
        .ok ()) := by
    simp only [filterUsers, hall, filterElements_users]
    rw [displayUsers_records _ _ (all_users_records _)]
    simp [hall]
  refine ⟨by rw [hrun], by rw [hrun], by rw [hrun], List.filter_sublist _, by rw [hrun], ?_⟩
  intro hs hr hlow
  rw [hrun]
  simp only
  congr 1
  apply List.filter_eq_self.mpr
  intro u _
  simp [MatchesFilter, hs, hr, hlow]

theorem filterUsers_spec_witness :
    ({ freshPage with allUsers := generateMockUsers, userSearch := "JANE",
                      userRoleFilter := "user" } : AdminPage).allUsers =
        .arr (mockUsers.map User.toJs) ∧
      (filterUsers (backendAnswering 200 .null)
        { freshPage with allUsers := generateMockUsers, userSearch := "JANE",
                         userRoleFilter := "user" }).1.usersTableBody =
        [User.toJs { id := 2, username := "jane_smith", email := "jane@example.com",
                     role := "user", created_at := "2024-02-20", campaigns_count := 3 }] ∧
      (filterUsers (backendAnswering 200 .null)
        { freshPage with allUsers := generateMockUsers }).1.usersTableBody =
        mockUsers.map User.toJs :=
  ⟨rfl,
    ((filterUsers_spec (backendAnswering 200 .null)
      { freshPage with allUsers := generateMockUsers, userSearch := "JANE",
                       userRoleFilter := "user" } mockUsers rfl).2.2.1).trans (by rfl),
    (filterUsers_spec (backendAnswering 200 .null)
      { freshPage with allUsers := generateMockUsers } mockUsers rfl).2.2.2.2.2 rfl rfl rfl⟩

end Admin

namespace Admin

/-! ### What `loadUsers` leaves alone -/

theorem showAllUsers_session (p : AdminPage) :
    (showAllUsers p).1.localStorage = p.localStorage ∧
      (showAllUsers p).1.href = p.href ∧
      (showAllUsers p).1.requests = p.requests := by
  obtain ⟨rows, n, options, h⟩ := showAllUsers_frame p
  rw [h]
  exact ⟨rfl, rfl, rfl⟩

theorem loadUsersResume_session (pf : Platform) (request : Request) (p : AdminPage) :
    (loadUsersResume pf request p).1.localStorage = p.localStorage ∧
      (loadUsersResume pf request p).1.href = p.href ∧
      (loadUsersResume pf request p).1.requests = p.requests := by
  unfold loadUsersResume
  cases hf : pf.fetch request with
  | rejected e => simp
  | resolved r =>
    by_cases hok : r.ok = true
    · cases hj : r.json with
      | error e => simp [hok, hj]
      | ok data =>
        cases hu : data.getProp "users" with
        | error e => simp [hok, hj, hu]
        | ok users =>
          simpa [hok, hj, hu] using showAllUsers_session
            { p with allUsers := users.or generateMockUsers }
    · simpa [hok] using showAllUsers_session { p with allUsers := generateMockUsers }

/-- Once its request is answered, `loadUsers` writes neither local storage nor
the location and calls `fetch` no more. -/
theorem loadUsersSettle_session (pf : Platform) (request : Request) (p : AdminPage) :
    (loadUsersSettle pf request p).1.localStorage = p.localStorage ∧
      (loadUsersSettle pf request p).1.href = p.href ∧
      (loadUsersSettle pf request p).1.requests = p.requests := by
  have ht := loadUsersResume_session pf request p
  unfold loadUsersSettle
  rcases hr : loadUsersResume pf request p with ⟨q, res⟩
  rw [hr] at ht
  cases res with
  | ok u => simpa using ht
  | error e =>
    have hs := showAllUsers_session { q with allUsers := generateMockUsers }
    simp only at ht ⊢
    exact ⟨hs.1.trans ht.1, hs.2.1.trans ht.2.1, hs.2.2.trans ht.2.2⟩

/-- Whatever the outcome of its request, `loadUsers` hands exactly one request
to `fetch` and writes neither local storage nor the location. -/
theorem loadUsers_session (pf : Platform) (p : AdminPage) :
    (loadUsers pf p).1.localStorage = p.localStorage ∧
      (loadUsers pf p).1.href = p.href ∧
      (loadUsers pf p).1.requests = p.requests ++ [usersRequest p] := by
  rw [loadUsers_eq_settle]
  exact loadUsersSettle_session pf (usersRequest p)
    { p with requests := p.requests ++ [usersRequest p] }

/-- The statements `displayUsers(allUsers); updateUserFilter();` with the mock
list in `allUsers`: the mock list is displayed, whatever `updateUserFilter`
does after it. -/
theorem showAllUsers_mock (q : AdminPage) :
    ∃ options,
      (showAllUsers { q with allUsers := generateMockUsers }).1 =
        { q with allUsers := generateMockUsers,
                 displayed := q.displayed ++ [generateMockUsers],
                 usersTableBody := mockUsers.map User.toJs,
                 totalUsers := 4,
                 campaignUserFilter := options } := by
  have hd : displayUsers generateMockUsers { q with allUsers := generateMockUsers } =
      ({ q with allUsers := generateMockUsers,
                displayed := q.displayed ++ [generateMockUsers],
                usersTableBody := mockUsers.map User.toJs,
                totalUsers := 4 }, .ok ()) :=
    displayUsers_records (mockUsers.map User.toJs)
      { q with allUsers := generateMockUsers } (all_users_records mockUsers)
  obtain ⟨options, hu⟩ := updateUserFilter_frame
    { q with allUsers := generateMockUsers,
             displayed := q.displayed ++ [generateMockUsers],
             usersTableBody := mockUsers.map User.toJs,
             totalUsers := 4 }
  refine ⟨options, ?_⟩
  unfold showAllUsers
  simp only [hd, hu]

/-- C12, amended: when the `/admin/users` request of `loadUsers` is answered
with status 401, `loadUsers` treats the answer as any other failed request:
local storage (the `access_token` included) and the location are as before,
the mock list is put in `allUsers` and its four rows are rendered; and on a
page whose `allCampaigns` is an array of campaigns (no entry `null`, each
`user` convertible to a string) the mock list is the one list passed to
`displayUsers` and nothing is thrown. -/
theorem loadUsers_unauthorized (pf : Platform) (p : AdminPage) (response : Response)
    (hfetch : pf.fetch (usersRequest p) = .resolved response)
    (hstatus : response.status = 401) :
    (loadUsers pf p).1.localStorage = p.localStorage ∧
      (loadUsers pf p).1.href = p.href ∧
      (loadUsers pf p).1.allUsers = generateMockUsers ∧
      (loadUsers pf p).1.usersTableBody = mockUsers.map User.toJs ∧
      (isCampaignArray p.allCampaigns = true →
        (loadUsers pf p).2 = .ok () ∧
          (loadUsers pf p).1.displayed = p.displayed ++ [generateMockUsers]) := by
  have hok : response.ok = false := by
    simp [Response.ok, hstatus]
  have hsession := loadUsers_session pf p
  obtain ⟨options, hshow⟩ := showAllUsers_mock
    { p with requests := p.requests ++ [usersRequest p] }
  have htry : loadUsersTry pf p =
      showAllUsers { p with requests := p.requests ++ [usersRequest p],
                            allUsers := generateMockUsers } := by
    simp [loadUsersTry, loadUsersResume, hfetch, hok]
  rcases hr : showAllUsers { p with requests := p.requests ++ [usersRequest p],
                                    allUsers := generateMockUsers } with ⟨q, res⟩
  rw [hr] at hshow htry
  simp only at hshow
  refine ⟨hsession.1, hsession.2.1, ?_, ?_, ?_⟩
  · cases res with
    | ok u => simp [loadUsers, htry, hshow]
    | error e =>
      obtain ⟨options', hagain⟩ := showAllUsers_mock q
      simp only [loadUsers, htry]
      rw [hagain]
  · cases res with
    | ok u => simp [loadUsers, htry, hshow]
    | error e =>
      obtain ⟨options', hagain⟩ := showAllUsers_mock q
      simp only [loadUsers, htry]
      rw [hagain]
  · intro hcampaigns
    have hc := loadUsers_catch { p with requests := p.requests ++ [usersRequest p] } hcampaigns
    rw [hr] at hc
    simp only at hc
    rw [hc.1] at htry
    simp [loadUsers, htry, hshow]

theorem loadUsers_unauthorized_witness :
    (backendAnswering 401 (.obj [("msg", .str "Token has expired")])).fetch
        (usersRequest freshPage) =
        .resolved { status := 401, json := .ok (.obj [("msg", .str "Token has expired")]) } ∧
      isCampaignArray freshPage.allCampaigns = true ∧
      (loadUsers (backendAnswering 401 (.obj [("msg", .str "Token has expired")]))
        freshPage).1.localStorage = freshPage.localStorage ∧
      (loadUsers (backendAnswering 401 (.obj [("msg", .str "Token has expired")]))
        freshPage).1.href = freshPage.href ∧
      (loadUsers (backendAnswering 401 (.obj [("msg", .str "Token has expired")]))
        freshPage).1.displayed = freshPage.displayed ++ [generateMockUsers] :=
  ⟨rfl, rfl,
    (loadUsers_unauthorized (backendAnswering 401 (.obj [("msg", .str "Token has expired")]))
      freshPage { status := 401, json := .ok (.obj [("msg", .str "Token has expired")]) }
      rfl rfl).1,
    (loadUsers_unauthorized (backendAnswering 401 (.obj [("msg", .str "Token has expired")]))
      freshPage { status := 401, json := .ok (.obj [("msg", .str "Token has expired")]) }
      rfl rfl).2.1,
    ((loadUsers_unauthorized (backendAnswering 401 (.obj [("msg", .str "Token has expired")]))
      freshPage { status := 401, json := .ok (.obj [("msg", .str "Token has expired")]) }
      rfl rfl).2.2.2.2 rfl).2⟩

/-- C12 as stated fails: the backend answers the `/admin/users` request with
status 401; afterwards the `access_token` is still stored, the location is
still the admin panel and not `/login`, and the mock user list has been
displayed. -/
theorem loadUsers_keeps_session_on_401 :
    (backendAnswering 401 (.obj [("msg", .str "Token has expired")])).fetch
        (usersRequest freshPage) =
        .resolved { status := 401, json := .ok (.obj [("msg", .str "Token has expired")]) } ∧
      (loadUsers (backendAnswering 401 (.obj [("msg", .str "Token has expired")]))
        freshPage).1.localStorage.getItem "access_token" = some "abc" ∧
      (loadUsers (backendAnswering 401 (.obj [("msg", .str "Token has expired")]))
        freshPage).1.href = "/admin" ∧
      (loadUsers (backendAnswering 401 (.obj [("msg", .str "Token has expired")]))
        freshPage).1.href ≠ "/login" ∧
      (loadUsers (backendAnswering 401 (.obj [("msg", .str "Token has expired")]))
        freshPage).1.displayed = [generateMockUsers] ∧
      (loadUsers (backendAnswering 401 (.obj [("msg", .str "Token has expired")]))
        freshPage).1.usersTableBody = mockUsers.map User.toJs := by
  refine ⟨rfl, rfl, rfl, ?_, rfl, rfl⟩
  have h : (loadUsers (backendAnswering 401 (.obj [("msg", .str "Token has expired")]))
      freshPage).1.href = "/admin" := rfl
  rw [h]
  decide

end Admin

namespace Admin

/-! ### The page load -/

theorem appendCampaignRows_page (env : AdminPlatform) :
    ∀ (cs : List JsVal) (a : AdminPanel), (appendCampaignRows env cs a).1.page = a.page
  | [], a => rfl
  | c :: rest, a => by
    unfold appendCampaignRows
    cases hc : campaignRow env c with
    | error e => rfl
    | ok row =>
      simpa using appendCampaignRows_page env rest
        { a with campaignsTableBody := a.campaignsTableBody ++ [row] }

theorem displayCampaigns_page (env : AdminPlatform) (campaigns : JsVal) (a : AdminPanel) :
    (displayCampaigns env campaigns a).1.page = a.page := by
  unfold displayCampaigns
  cases campaigns with
  | arr cs =>
    have h := appendCampaignRows_page env cs { a with campaignsTableBody := [] }
    rcases hr : appendCampaignRows env cs { a with campaignsTableBody := [] } with ⟨q, res⟩
    rw [hr] at h
    cases res with
    | error e => simpa [hr] using h
    | ok u => cases hf : filterElements isActive cs <;> simpa [hr, hf] using h
  | _ => rfl

theorem updateSystemStats_page (env : AdminPlatform) (stats : JsVal) (a : AdminPanel) :
    (updateSystemStats env stats a).1.page = a.page := by
  cases h1 : stats.getProp "total_spend" with
  | error e => simp [updateSystemStats, h1]
  | ok v1 =>
    cases h2 : localeString env v1 with
    | error e => simp [updateSystemStats, h1, h2]
    | ok t1 =>
      cases h3 : stats.getProp "total_predictions" with
      | error e => simp [updateSystemStats, h1, h2, h3]
      | ok v2 => cases h4 : localeString env v2 <;> simp [updateSystemStats, h1, h2, h3, h4]

/-- Once its request is answered, `loadCampaigns` writes neither local storage
nor the location and calls `fetch` no more. -/
theorem loadCampaignsSettle_session (pf : Platform) (env : AdminPlatform) (request : Request)
    (a : AdminPanel) :
    (loadCampaignsSettle pf env request a).1.page.localStorage = a.page.localStorage ∧
      (loadCampaignsSettle pf env request a).1.page.href = a.page.href ∧
      (loadCampaignsSettle pf env request a).1.page.requests = a.page.requests := by
  have htry : (loadCampaignsResume pf env request a).1.page.localStorage = a.page.localStorage ∧
      (loadCampaignsResume pf env request a).1.page.href = a.page.href ∧
      (loadCampaignsResume pf env request a).1.page.requests = a.page.requests := by
    unfold loadCampaignsResume
    cases hf : pf.fetch request with
    | rejected e => simp
    | resolved r =>
      by_cases hok : r.ok = true
      · cases hj : r.json with
        | error e => simp [hok, hj]
        | ok data =>
          cases hu : data.getProp "campaigns" with
          | error e => simp [hok, hj, hu]
          | ok campaigns =>
            by_cases ht : campaigns.truthy = true <;>
              simp [hok, hj, hu, ht, displayCampaigns_page, assignMockCampaigns]
      · simp [hok, displayCampaigns_page, assignMockCampaigns]
  unfold loadCampaignsSettle
  rcases hr : loadCampaignsResume pf env request a with ⟨q, res⟩
  rw [hr] at htry
  cases res with
  | ok u => simpa using htry
  | error e => simpa [displayCampaigns_page, assignMockCampaigns] using htry

/-- Once its request is answered, `loadSystemStats` writes neither local
storage nor the location and calls `fetch` no more. -/
theorem loadSystemStatsSettle_session (pf : Platform) (env : AdminPlatform) (request : Request)
    (a : AdminPanel) :
    (loadSystemStatsSettle pf env request a).1.page.localStorage = a.page.localStorage ∧
      (loadSystemStatsSettle pf env request a).1.page.href = a.page.href ∧
      (loadSystemStatsSettle pf env request a).1.page.requests = a.page.requests := by
  have htry : (loadSystemStatsResume pf env request a).1.page.localStorage =
        a.page.localStorage ∧
      (loadSystemStatsResume pf env request a).1.page.href = a.page.href ∧
      (loadSystemStatsResume pf env request a).1.page.requests = a.page.requests := by
    unfold loadSystemStatsResume
    cases hf : pf.fetch request with
    | rejected e => simp
    | resolved r =>
      by_cases hok : r.ok = true
      · cases hj : r.json with
        | error e => simp [hok, hj]
        | ok data => simp [hok, hj, updateSystemStats_page]
      · simp [hok, updateSystemStats_page]
  unfold loadSystemStatsSettle
  rcases hr : loadSystemStatsResume pf env request a with ⟨q, res⟩
  rw [hr] at htry
  cases res with
  | ok u => simpa using htry
  | error e => simpa [updateSystemStats_page] using htry

/-- The step in which a loader settles writes neither local storage nor the
location and calls `fetch` no more. -/
theorem settle_session (pf : Platform) (env : AdminPlatform) (requests : LoaderRequests)
    (l : Loader) (a : AdminPanel) :
    (settle pf env requests l a).1.page.localStorage = a.page.localStorage ∧
      (settle pf env requests l a).1.page.href = a.page.href ∧
      (settle pf env requests l a).1.page.requests = a.page.requests := by
  cases l with
  | users => exact loadUsersSettle_session pf requests.users a.page
  | campaigns => exact loadCampaignsSettle_session pf env requests.campaigns a
  | stats => exact loadSystemStatsSettle_session pf env requests.stats a

/-- In whatever order the loaders settle, they write neither local storage nor
the location and call `fetch` no more. -/
theorem settleAll_session (pf : Platform) (env : AdminPlatform) (requests : LoaderRequests) :
    ∀ (order : List Loader) (a : AdminPanel),
      (settleAll pf env requests order a).1.page.localStorage = a.page.localStorage ∧
      (settleAll pf env requests order a).1.page.href = a.page.href ∧
      (settleAll pf env requests order a).1.page.requests = a.page.requests
  | [], a => ⟨rfl, rfl, rfl⟩
  | l :: rest, a => by
    have hstep := settle_session pf env requests l a
    have hrest := settleAll_session pf env requests rest (settle pf env requests l a).1
    simp only [settleAll]
    exact ⟨hrest.1.trans hstep.1, hrest.2.1.trans hstep.2.1, hrest.2.2.trans hstep.2.2⟩

/-- The function `loadAdminData()` from `await Promise.all(...)` on writes
neither local storage nor the location and calls `fetch` no more. -/
theorem loadAdminDataFinish_session (pf : Platform) (env : AdminPlatform)
    (arrival : List Loader) (requests : LoaderRequests) (a : AdminPanel) :
    (loadAdminDataFinish pf env arrival requests a).1.page.localStorage = a.page.localStorage ∧
      (loadAdminDataFinish pf env arrival requests a).1.page.href = a.page.href ∧
      (loadAdminDataFinish pf env arrival requests a).1.page.requests = a.page.requests := by
  have h := settleAll_session pf env requests (settleOrder [] arrival) a
  have hpage : (loadAdminDataFinish pf env arrival requests a).1.page =
      (settleAll pf env requests (settleOrder [] arrival) a).1.page := by
    simp only [loadAdminDataFinish, showLoading]
    split <;> rfl
  rw [hpage]
  exact h

/-- The function `loadAdminData()` hands the three admin data requests to `fetch`,
built from the local storage it finds, and writes neither local storage nor
the location, in whatever order the three answers arrive. -/
theorem loadAdminData_session (pf : Platform) (env : AdminPlatform) (arrival : List Loader)
    (a : AdminPanel) :
    (loadAdminData pf env arrival a).1.page.localStorage = a.page.localStorage ∧
      (loadAdminData pf env arrival a).1.page.href = a.page.href ∧
      (loadAdminData pf env arrival a).1.page.requests =
        a.page.requests ++
          [usersRequest a.page, campaignsRequest a.page, statsRequest a.page] := by
  have h := loadAdminDataFinish_session pf env arrival (loadAdminDataStart a).2
    (loadAdminDataStart a).1
  unfold loadAdminData
  exact ⟨h.1, h.2.1, h.2.2⟩

/-- The order in which the answers arrive shows in the page.  The backend
answers every request with one campaign of the user `ann` and no users: when
`loadCampaigns` settles before `loadUsers`, `updateUserFilter` lists the user
of the campaign just loaded; when it settles after, `updateUserFilter` finds
`allCampaigns` still empty. -/
theorem onDOMContentLoaded_settle_order :
    (onDOMContentLoaded
        (backendAnswering 200
          (.obj [("users", .arr []),
            ("campaigns", .arr [.obj [("user", .str "ann"), ("impressions", .str "many"),
              ("clicks", .str "few"), ("spend", .str "some")]])]))
        plainAdminPlatform [Loader.campaigns, Loader.users, Loader.stats]
        panelWithoutSession).page.campaignUserFilter = [.str "ann"] ∧
      (onDOMContentLoaded
        (backendAnswering 200
          (.obj [("users", .arr []),
            ("campaigns", .arr [.obj [("user", .str "ann"), ("impressions", .str "many"),
              ("clicks", .str "few"), ("spend", .str "some")]])]))
        plainAdminPlatform [Loader.users, Loader.campaigns, Loader.stats]
        panelWithoutSession).page.campaignUserFilter = [] :=
  ⟨rfl, rfl⟩

/-- What the listener of `DOMContentLoaded` does to the session, in whatever
order the three answers arrive: the location is the one `checkAdminAuth`
leaves, `/login` when no non-empty `access_token` is stored or `user_role` is
not `admin` and the old one otherwise, and the three admin data requests are
handed to `fetch` in either case. -/
theorem onDOMContentLoaded_session (pf : Platform) (env : AdminPlatform)
    (arrival : List Loader) (a : AdminPanel) :
    ((itemTruthy (a.page.localStorage.getItem "access_token") = false ∨
        a.page.localStorage.getItem "user_role" ≠ some "admin") →
        (onDOMContentLoaded pf env arrival a).page.href = "/login") ∧
      (¬ (itemTruthy (a.page.localStorage.getItem "access_token") = false ∨
          a.page.localStorage.getItem "user_role" ≠ some "admin") →
        (onDOMContentLoaded pf env arrival a).page.href = a.page.href) ∧
      (onDOMContentLoaded pf env arrival a).page.requests =
        a.page.requests ++
          [usersRequest a.page, campaignsRequest a.page, statsRequest a.page] := by
  have hl := loadAdminDataFinish_session pf env arrival
    (loadAdminDataStart (checkAdminAuth a)).2
    (initializeCharts (loadAdminDataStart (checkAdminAuth a)).1)
  have hpage : (onDOMContentLoaded pf env arrival a).page =
      (loadAdminDataFinish pf env arrival (loadAdminDataStart (checkAdminAuth a)).2
        (initializeCharts (loadAdminDataStart (checkAdminAuth a)).1)).1.page := rfl
  have hstore : (checkAdminAuth a).page.localStorage = a.page.localStorage := by
    simp only [checkAdminAuth]
    split <;> rfl
  have hreqs : (checkAdminAuth a).page.requests = a.page.requests := by
    simp only [checkAdminAuth]
    split <;> rfl
  have hhref : (initializeCharts (loadAdminDataStart (checkAdminAuth a)).1).page.href =
      (checkAdminAuth a).page.href := rfl
  have hstart : (initializeCharts (loadAdminDataStart (checkAdminAuth a)).1).page.requests =
      (checkAdminAuth a).page.requests ++
        [usersRequest (checkAdminAuth a).page, campaignsRequest (checkAdminAuth a).page,
          statsRequest (checkAdminAuth a).page] := rfl
  rw [hpage]
  refine ⟨?_, ?_, ?_⟩
  · intro h
    rw [hl.2.1, hhref]
    unfold checkAdminAuth
    rcases h with h | h <;> simp [h]
  · intro h
    rw [hl.2.1, hhref]
    unfold checkAdminAuth
    simp only [not_or, Bool.not_eq_false, ne_eq, not_not] at h
    simp [h.1, h.2]
  · rw [hl.2.2, hstart, hreqs]
    simp [usersRequest, campaignsRequest, statsRequest, hstore]

/-- C13 fails on the code: the admin panel is opened without a session.  The
listener sets the location to `/login`, as `checkAdminAuth` is to do, and all
the same the three admin data requests are handed to `fetch`, with the header
`Bearer null`, in whatever order the three answers arrive: the listener calls
`loadAdminData()` whatever `checkAdminAuth()` found. -/
theorem onDOMContentLoaded_without_session :
    panelWithoutSession.page.localStorage.getItem "access_token" = none ∧
      ∀ arrival : List Loader,
        (onDOMContentLoaded (backendAnswering 401 .null) plainAdminPlatform arrival
          panelWithoutSession).page.href = "/login" ∧
        (onDOMContentLoaded (backendAnswering 401 .null) plainAdminPlatform arrival
          panelWithoutSession).page.requests =
          [{ url := "/api/admin/users",
             options := { method := none, headers := [("Authorization", "Bearer null")],
                          body := none } },
           { url := "/api/admin/campaigns",
             options := { method := none, headers := [("Authorization", "Bearer null")],
                          body := none } },
           { url := "/api/admin/stats",
             options := { method := none, headers := [("Authorization", "Bearer null")],
                          body := none } }] :=
  ⟨rfl, fun arrival =>
    ⟨(onDOMContentLoaded_session (backendAnswering 401 .null) plainAdminPlatform arrival
        panelWithoutSession).1 (Or.inl rfl),
      (onDOMContentLoaded_session (backendAnswering 401 .null) plainAdminPlatform arrival
        panelWithoutSession).2.2.trans (by decide)⟩⟩

end Admin

/-! ### Rounding to the nearest double -/

theorem abs_roundHalfEven_sub_le (y : ℚ) : |(roundHalfEven y : ℚ) - y| ≤ 1 / 2 := by
  have h0 : (0 : ℚ) ≤ y - ⌊y⌋ := sub_nonneg.mpr (Int.floor_le y)
  have h1 : y - ⌊y⌋ < 1 := by
    have := Int.lt_floor_add_one y
    linarith
  unfold roundHalfEven
  split_ifs with ha hb hc
  · rw [abs_le]
    constructor <;> linarith
  · rw [abs_le]
    push_cast
    constructor <;> linarith
  · have hhalf : y - ⌊y⌋ = 1 / 2 := le_antisymm (not_lt.mp hb) (not_lt.mp ha)
    rw [abs_le]
    constructor <;> linarith
  · have hhalf : y - ⌊y⌋ = 1 / 2 := le_antisymm (not_lt.mp hb) (not_lt.mp ha)
    rw [abs_le]
    push_cast
    constructor <;> linarith

theorem roundHalfEven_eq_of_abs_lt {y : ℚ} {m : ℤ} (h : |y - m| < 1 / 2) :
    roundHalfEven y = m := by
  have hle := abs_roundHalfEven_sub_le y
  rw [abs_lt] at h
  rw [abs_le] at hle
  have h1 : ((roundHalfEven y : ℤ) : ℚ) - m < 1 := by linarith [h.1, h.2, hle.1, hle.2]
  have h2 : (-1 : ℚ) < ((roundHalfEven y : ℤ) : ℚ) - m := by linarith [h.1, h.2, hle.1, hle.2]
  have h1' : roundHalfEven y - m < 1 := by exact_mod_cast h1
  have h2' : -1 < roundHalfEven y - m := by exact_mod_cast h2
  omega

theorem binade_eq {q : ℚ} {e : ℤ} (h1 : (2 : ℚ) ^ e ≤ q) (h2 : q < (2 : ℚ) ^ (e + 1))
    (he : -1022 ≤ e) : binade q = e := by
  have hq : 0 < q := lt_of_lt_of_le (by positivity) h1
  have hlog : Int.log 2 q = e := by
    apply le_antisymm
    · have := (Int.lt_zpow_iff_log_lt (b := 2) (by norm_num) hq (x := e + 1)).mp
        (by exact_mod_cast h2)
      omega
    · exact (Int.zpow_le_iff_le_log (b := 2) (by norm_num) hq).mp (by exact_mod_cast h1)
  simp [binade, hlog, he]

/-- The double nearest to a positive `q` with `2 ^ e ≤ q < 2 ^ (e + 1)`, given
the integer nearest to `q / 2 ^ (e - 52)`. -/
theorem toDouble_eq {q : ℚ} {e m : ℤ} (h1 : (2 : ℚ) ^ e ≤ q) (h2 : q < (2 : ℚ) ^ (e + 1))
    (he : -1022 ≤ e) (hm : |q / 2 ^ (e - 52) - m| < 1 / 2) :
    toDouble q = m * 2 ^ (e - 52) := by
  have hq : 0 < q := lt_of_lt_of_le (by positivity) h1
  have hb : binade |q| = e := by
    rw [abs_of_pos hq]
    exact binade_eq h1 h2 he
  simp only [toDouble, hq.ne', if_false, hb, roundHalfEven_eq_of_abs_lt hm]

/-- Rounding to the nearest double changes a positive number that is not below
the smallest normal double by at most the fraction `2 ^ (-53)` of it. -/
theorem abs_toDouble_sub_le {q : ℚ} (hq : (2 : ℚ) ^ (-1022 : ℤ) ≤ q) :
    |toDouble q - q| ≤ q * 2 ^ (-53 : ℤ) := by
  have hpos : 0 < q := lt_of_lt_of_le (by positivity) hq
  have hlog : (-1022 : ℤ) ≤ Int.log 2 q :=
    (Int.zpow_le_iff_le_log (b := 2) (by norm_num) hpos).mp (by exact_mod_cast hq)
  have hb : binade |q| = Int.log 2 q := by
    rw [abs_of_pos hpos]
    simp [binade, hlog]
  have hle : (2 : ℚ) ^ Int.log 2 q ≤ q := by
    exact_mod_cast Int.zpow_log_le_self (b := 2) (by norm_num) hpos
  have hulp : (0 : ℚ) < 2 ^ (Int.log 2 q - 52) := by positivity
  have hr := abs_roundHalfEven_sub_le (q / 2 ^ (Int.log 2 q - 52))
  simp only [toDouble, hpos.ne', if_false, hb]
  have hsplit : (roundHalfEven (q / 2 ^ (Int.log 2 q - 52)) : ℚ) * 2 ^ (Int.log 2 q - 52) - q =
      ((roundHalfEven (q / 2 ^ (Int.log 2 q - 52)) : ℚ) - q / 2 ^ (Int.log 2 q - 52)) *
        2 ^ (Int.log 2 q - 52) := by
    field_simp
  rw [hsplit, abs_mul, abs_of_pos hulp]
  have hpow : (2 : ℚ) ^ (Int.log 2 q - 52) = 2 ^ Int.log 2 q * 2 ^ (-52 : ℤ) := by
    rw [← zpow_add₀ (by norm_num : (2 : ℚ) ≠ 0)]
    congr 1
  calc |(roundHalfEven (q / 2 ^ (Int.log 2 q - 52)) : ℚ) - q / 2 ^ (Int.log 2 q - 52)| *
        2 ^ (Int.log 2 q - 52)
      ≤ 1 / 2 * 2 ^ (Int.log 2 q - 52) := by
        exact mul_le_mul_of_nonneg_right hr hulp.le
    _ = 2 ^ Int.log 2 q * 2 ^ (-53 : ℤ) := by
        rw [hpow]
        norm_num
        ring
    _ ≤ q * 2 ^ (-53 : ℤ) := by
        exact mul_le_mul_of_nonneg_right hle (by positivity)

namespace Admin

/-! ### The click-through rate -/

/-- The double `(clicks / impressions) * 100`, times 100, lies closer to the
exact `clicks / impressions * 10000` than `1 / (2 * impressions)`, for counts
that doubles represent and at most `10 ^ 11` clicks. -/
theorem ctrValue_close (c i : ℕ) (hi : 0 < i) (hi53 : i < 2 ^ 53) (hc : c ≤ 10 ^ 11) :
    |ctrValue c i * 100 - (c : ℚ) / i * 10000| < 1 / (2 * i) := by
  have hiq : (0 : ℚ) < i := by exact_mod_cast hi
  rcases Nat.eq_zero_or_pos c with h0 | hcpos
  · subst h0
    simpa [ctrValue, toDouble] using hi
  have hu : (2 : ℚ) ^ (-53 : ℤ) = 1 / 9007199254740992 := by norm_num
  have hsmall : (2 : ℚ) ^ (-1022 : ℤ) ≤ 2 ^ (-53 : ℤ) :=
    zpow_le_zpow_right₀ (by norm_num) (by norm_num)
  have hcq : (1 : ℚ) ≤ c := by exact_mod_cast hcpos
  have hcq' : (c : ℚ) ≤ 10 ^ 11 := by exact_mod_cast hc
  have hiq' : (i : ℚ) < 9007199254740992 := by exact_mod_cast hi53
  have hq1pos : (0 : ℚ) < (c : ℚ) / i := by positivity
  have hq1 : (2 : ℚ) ^ (-53 : ℤ) ≤ (c : ℚ) / i := by
    rw [hu, div_le_div_iff₀ (by norm_num) hiq]
    nlinarith
  have e1 := abs_toDouble_sub_le (hsmall.trans hq1)
  rw [hu] at e1 hq1
  rw [abs_le] at e1
  have hx1 : (c : ℚ) / i ≤ toDouble ((c : ℚ) / i) * 100 := by nlinarith [e1.1]
  have e2 := abs_toDouble_sub_le
    (q := toDouble ((c : ℚ) / i) * 100) (by rw [hu] at hsmall; linarith)
  rw [hu] at e2
  rw [abs_le] at e2
  have hbound : (c : ℚ) / i * 10000 * (3 / 9007199254740992) < 1 / (2 * i) := by
    rw [div_mul_eq_mul_div, div_mul_eq_mul_div, div_lt_div_iff₀ hiq (by positivity)]
    nlinarith
  unfold ctrValue
  rw [abs_lt]
  constructor <;> nlinarith [e1.1, e1.2, e2.1, e2.2]

/-- An integer nearest to `y` is within one half of `v` when `y` is closer to
`v` than the distance between two multiples of `1 / (2 * i)` and `v * i` is a
whole number. -/
theorem abs_floor_sub_le (y : ℚ) (w i : ℕ) (hi : 0 < i)
    (hclose : |y - (w : ℚ) / i| < 1 / (2 * i)) :
    |((⌊y + 1 / 2⌋ : ℤ) : ℚ) - (w : ℚ) / i| ≤ 1 / 2 := by
  have hiq : (0 : ℚ) < i := by exact_mod_cast hi
  have hfl := Int.floor_le (y + 1 / 2)
  have hlt := Int.lt_floor_add_one (y + 1 / 2)
  rw [abs_lt] at hclose
  obtain ⟨hlo, hhi⟩ := hclose
  have hlo' : (w : ℚ) / i - 1 / (2 * i) < y := by linarith
  have hhi' : y < (w : ℚ) / i + 1 / (2 * i) := by linarith
  have h2i : (0 : ℚ) < 2 * i := by positivity
  rw [abs_le]
  constructor
  · by_contra hcon
    push_neg at hcon
    have h1 : (2 * ⌊y + 1 / 2⌋ + 1) * (i : ℤ) < 2 * (w : ℤ) := by
      have : ((2 * ⌊y + 1 / 2⌋ + 1) * (i : ℤ) : ℚ) < 2 * (w : ℤ) := by
        have hw : ((⌊y + 1 / 2⌋ : ℤ) : ℚ) + 1 / 2 < (w : ℚ) / i := by linarith
        rw [lt_div_iff₀ hiq] at hw
        push_cast
        linarith
      exact_mod_cast this
    have h2 : (2 * ⌊y + 1 / 2⌋ + 1) * (i : ℤ) + 1 ≤ 2 * (w : ℤ) := by omega
    have h3 : ((2 * ⌊y + 1 / 2⌋ + 1) * (i : ℤ) + 1 : ℚ) ≤ 2 * (w : ℤ) := by exact_mod_cast h2
    have h4 : ((⌊y + 1 / 2⌋ : ℤ) : ℚ) + 1 / 2 + 1 / (2 * i) ≤ (w : ℚ) / i := by
      rw [le_div_iff₀ hiq]
      have : (1 : ℚ) / (2 * i) * i = 1 / 2 := by field_simp; ring
      push_cast at h3
      nlinarith
    linarith
  · by_contra hcon
    push_neg at hcon
    have h1 : 2 * (w : ℤ) < (2 * ⌊y + 1 / 2⌋ - 1) * (i : ℤ) := by
      have : (2 * (w : ℤ) : ℚ) < (2 * ⌊y + 1 / 2⌋ - 1) * (i : ℤ) := by
        have hw : (w : ℚ) / i < ((⌊y + 1 / 2⌋ : ℤ) : ℚ) - 1 / 2 := by linarith
        rw [div_lt_iff₀ hiq] at hw
        push_cast
        linarith
      exact_mod_cast this
    have h2 : 2 * (w : ℤ) + 1 ≤ (2 * ⌊y + 1 / 2⌋ - 1) * (i : ℤ) := by omega
    have h3 : (2 * (w : ℤ) + 1 : ℚ) ≤ (2 * ⌊y + 1 / 2⌋ - 1) * (i : ℤ) := by exact_mod_cast h2
    have h4 : (w : ℚ) / i + 1 / (2 * i) ≤ ((⌊y + 1 / 2⌋ : ℤ) : ℚ) - 1 / 2 := by
      have : (w : ℚ) / i + 1 / (2 * i) = (2 * w + 1) / (2 * i) := by field_simp; ring
      rw [this, div_le_iff₀ h2i]
      push_cast at h3
      nlinarith
    linarith

/-! ### Two campaigns whose exact rate lies halfway between two numerals -/

theorem ctrValue_201_20000 : ctrValue 201 20000 = 1131529406376837 / 1125899906842624 := by
  have h1 : toDouble (201 / 20000) = 2896715280324703 / 288230376151711744 := by
    rw [toDouble_eq (e := -7) (m := 5793430560649406) (by norm_num) (by norm_num)
      (by norm_num) (by rw [abs_lt]; constructor <;> norm_num)]
    norm_num
  have h2 : toDouble (2896715280324703 / 288230376151711744 * 100) =
      1131529406376837 / 1125899906842624 := by
    rw [toDouble_eq (e := 0) (m := 4526117625507348) (by norm_num) (by norm_num)
      (by norm_num) (by rw [abs_lt]; constructor <;> norm_num)]
    norm_num
  rw [ctrValue, h1, h2]

theorem ctrValue_1_800 : ctrValue 1 800 = 1 / 8 := by
  have h1 : toDouble (1 / 800) = 5764607523034235 / 4611686018427387904 := by
    rw [toDouble_eq (e := -10) (m := 5764607523034235) (by norm_num) (by norm_num)
      (by norm_num) (by rw [abs_lt]; constructor <;> norm_num)]
    norm_num
  have h2 : toDouble (5764607523034235 / 4611686018427387904 * 100) = 1 / 8 := by
    rw [toDouble_eq (e := -3) (m := 4503599627370496) (by norm_num) (by norm_num)
      (by norm_num) (by rw [abs_lt]; constructor <;> norm_num)]
    norm_num
  rw [ctrValue, h1, h2]

theorem ctrText_201_20000 (env : AdminPlatform) :
    ctrText env (.num 201) (.num 20000) = "1.00" := by
  have hfloor : ⌊(1131529406376837 / 1125899906842624 : ℚ) * 100 + 1 / 2⌋ = 100 := by
    rw [Int.floor_eq_iff]
    constructor <;> norm_num
  simp only [ctrText, ctrValue_201_20000, toFixed2, hfloor]
  norm_num
  decide

theorem ctrText_1_800 (env : AdminPlatform) :
    ctrText env (.num 1) (.num 800) = "0.13" := by
  have hfloor : ⌊(1 / 8 : ℚ) * 100 + 1 / 2⌋ = 13 := by
    rw [Int.floor_eq_iff]
    constructor <;> norm_num
  simp only [ctrText, ctrValue_1_800, toFixed2, hfloor]
  norm_num
  decide

/-! ### The rows of the campaign table -/

theorem bind_eq_ok {α β : Type} (x : Except Thrown α) (f : α → Except Thrown β) (b : β) :
    x >>= f = .ok b ↔ ∃ a, x = .ok a ∧ f a = .ok b := by
  cases x with
  | error e => simp [bind, Except.bind]
  | ok a => simp [bind, Except.bind]

/-- The cell with the rate of a row that `displayCampaigns` builds is the text
of `((campaign.clicks / campaign.impressions) * 100).toFixed(2)` and `%`. -/
theorem campaignRow_ctr (env : AdminPlatform) (campaign : JsVal) (row : CampaignRow)
    (hrow : campaignRow env campaign = .ok row) :
    ∃ clicks impressions, campaign.getProp "clicks" = .ok clicks ∧
      campaign.getProp "impressions" = .ok impressions ∧
      row.ctr = ctrText env clicks impressions ++ "%" := by
  simp only [campaignRow, bind_eq_ok] at hrow
  obtain ⟨clicks, hc, impressions, hi, _, _, _, _, user, _, _, _, name, _, _, _, platform, _,
    _, _, it, _, ct, _, spend, _, st, _, status, _, _, _, hpure⟩ := hrow
  refine ⟨clicks, impressions, hc, hi, ?_⟩
  simp only [pure, Except.pure, Except.ok.injEq] at hpure
  rw [← hpure]

/-- The rows the loop of `displayCampaigns` appends are the rows of the first
campaigns of the array, in order: all of them, or those before the one the
callback throws on. -/
theorem appendCampaignRows_rows (env : AdminPlatform) :
    ∀ (cs : List JsVal) (a : AdminPanel),
      ∃ rows, (appendCampaignRows env cs a).1.campaignsTableBody =
          a.campaignsTableBody ++ rows ∧
        List.Forall₂ (fun campaign row => campaignRow env campaign = .ok row)
          (cs.take rows.length) rows
  | [], a => ⟨[], by simp [appendCampaignRows], by simp⟩
  | c :: rest, a => by
    unfold appendCampaignRows
    cases hc : campaignRow env c with
    | error e => exact ⟨[], by simp, by simp⟩
    | ok row =>
      obtain ⟨rows, h1, h2⟩ := appendCampaignRows_rows env rest
        { a with campaignsTableBody := a.campaignsTableBody ++ [row] }
      refine ⟨row :: rows, by simpa using h1, ?_⟩
      simpa using ⟨hc, h2⟩

theorem displayCampaigns_rows (env : AdminPlatform) (cs : List JsVal) (a : AdminPanel) :
    List.Forall₂ (fun campaign row => campaignRow env campaign = .ok row)
      (cs.take (displayCampaigns env (.arr cs) a).1.campaignsTableBody.length)
      (displayCampaigns env (.arr cs) a).1.campaignsTableBody := by
  obtain ⟨rows, h1, h2⟩ := appendCampaignRows_rows env cs { a with campaignsTableBody := [] }
  have htable : (displayCampaigns env (.arr cs) a).1.campaignsTableBody = rows := by
    unfold displayCampaigns
    rcases hr : appendCampaignRows env cs { a with campaignsTableBody := [] } with ⟨q, res⟩
    rw [hr] at h1
    cases res with
    | error e => simpa [hr] using h1
    | ok u => cases hf : filterElements isActive cs <;> simpa [hr, hf] using h1
  rw [htable]
  exact h2

/-- The numeral `toFixed(2)` gives for the rate of a campaign whose counts are
natural numbers that doubles represent, with at most `10 ^ 11` clicks: it is
within one half of a hundredth of the exact rate. -/
theorem ctrText_nearest (env : AdminPlatform) (c i : ℕ) (hi : 0 < i) (hi53 : i < 2 ^ 53)
    (hc : c ≤ 10 ^ 11) :
    ∃ n : ℕ, ctrText env (.num c) (.num i) = hundredthsNumeral n ∧
      ctrText env (.num c) (.num i) = toFixed2 (ctrValue c i) ∧
      |(n : ℚ) / 100 - (c : ℚ) / i * 100| ≤ 1 / 200 := by
  have hiq : (0 : ℚ) < i := by exact_mod_cast hi
  have hclose := ctrValue_close c i hi hi53 hc
  have hw : (c : ℚ) / i * 10000 = ((c * 10000 : ℕ) : ℚ) / i := by
    push_cast
    ring
  rw [hw] at hclose
  have hnear := abs_floor_sub_le (ctrValue c i * 100) (c * 10000) i hi hclose
  rw [← hw] at hnear hclose
  have hhalf : (1 : ℚ) / (2 * i) ≤ 1 / 2 := by
    rw [div_le_div_iff₀ (by positivity) (by norm_num)]
    have : (1 : ℚ) ≤ i := by exact_mod_cast hi
    linarith
  have hcq : (0 : ℚ) ≤ (c : ℚ) / i * 10000 := by positivity
  rw [abs_lt] at hclose
  have hfloor : 0 ≤ ⌊ctrValue c i * 100 + 1 / 2⌋ :=
    Int.floor_nonneg.mpr (by linarith [hclose.1])
  have hlarge : ctrValue c i < 10 ^ 21 := by
    have h1 : (c : ℚ) / i * 10000 ≤ 10 ^ 11 * 10000 := by
      have : (c : ℚ) / i ≤ 10 ^ 11 := by
        rw [div_le_iff₀ hiq]
        have h2 : (c : ℚ) ≤ 10 ^ 11 := by exact_mod_cast hc
        have h3 : (1 : ℚ) ≤ i := by exact_mod_cast hi
        nlinarith
      linarith
    linarith [hclose.2]
  have htext : ctrText env (.num c) (.num i) = toFixed2 (ctrValue c i) := by
    have hc0 : (0 : ℚ) ≤ c := by positivity
    simp [ctrText, hc0, hiq, hlarge]
  refine ⟨⌊ctrValue c i * 100 + 1 / 2⌋.toNat, by rw [htext, toFixed2], htext, ?_⟩
  have hcast : ((⌊ctrValue c i * 100 + 1 / 2⌋.toNat : ℕ) : ℚ) =
      ((⌊ctrValue c i * 100 + 1 / 2⌋ : ℤ) : ℚ) := by
    exact_mod_cast Int.toNat_of_nonneg hfloor
  rw [hcast]
  rw [abs_le] at hnear ⊢
  constructor <;> linarith [hnear.1, hnear.2]

theorem appendCampaignRows_length (env : AdminPlatform) :
    ∀ (cs : List JsVal) (a : AdminPanel), (appendCampaignRows env cs a).2 = .ok () →
      (appendCampaignRows env cs a).1.campaignsTableBody.length =
        a.campaignsTableBody.length + cs.length
  | [], a, _ => by simp [appendCampaignRows]
  | c :: rest, a, h => by
    unfold appendCampaignRows at h ⊢
    cases hc : campaignRow env c with
    | error e => simp [hc] at h
    | ok row =>
      simp only [hc] at h ⊢
      rw [appendCampaignRows_length env rest _ h]
      simp
      omega

theorem displayCampaigns_length (env : AdminPlatform) (cs : List JsVal) (a : AdminPanel)
    (hok : (displayCampaigns env (.arr cs) a).2 = .ok ()) :
    (displayCampaigns env (.arr cs) a).1.campaignsTableBody.length = cs.length := by
  have hlen := appendCampaignRows_length env cs { a with campaignsTableBody := [] }
  unfold displayCampaigns at hok ⊢
  rcases hr : appendCampaignRows env cs { a with campaignsTableBody := [] } with ⟨q, res⟩
  rw [hr] at hlen
  cases res with
  | error e => simp [hr] at hok
  | ok u =>
    have := hlen rfl
    cases hf : filterElements isActive cs <;> simp_all

/-- C11, amended: `displayCampaigns` renders the campaigns of the array in
order, one row each, all of them when nothing is thrown; and in the row of
every campaign whose clicks and impressions are natural numbers, with
impressions positive and below `2 ^ 53` and at most `10 ^ 11` clicks, the cell
of the rate is a numeral with exactly two decimals followed by `%`, and that
numeral is within `0.005` of `clicks / impressions × 100`: the nearest numeral
with two decimals, and one of the two nearest when the exact value lies
halfway between them. -/
theorem displayCampaigns_ctr (env : AdminPlatform) (cs : List JsVal) (a : AdminPanel) :
    ((displayCampaigns env (.arr cs) a).2 = .ok () →
        (displayCampaigns env (.arr cs) a).1.campaignsTableBody.length = cs.length) ∧
      List.Forall₂
        (fun campaign row =>
          ∀ c i : ℕ, campaign.getProp "clicks" = .ok (.num c) →
            campaign.getProp "impressions" = .ok (.num i) →
            0 < i → i < 2 ^ 53 → c ≤ 10 ^ 11 →
            ∃ n : ℕ, row.ctr = hundredthsNumeral n ++ "%" ∧
              |(n : ℚ) / 100 - (c : ℚ) / i * 100| ≤ 1 / 200)
        (cs.take (displayCampaigns env (.arr cs) a).1.campaignsTableBody.length)
        (displayCampaigns env (.arr cs) a).1.campaignsTableBody := by
  refine ⟨displayCampaigns_length env cs a, ?_⟩
  refine (displayCampaigns_rows env cs a).imp ?_
  intro campaign row hrow c i hc hi hpos h53 hmax
  obtain ⟨clicks, impressions, hc', hi', hctr⟩ := campaignRow_ctr env campaign row hrow
  rw [hc] at hc'
  rw [hi] at hi'
  have hcn : clicks = .num c := by
    injection hc' with h
    exact h.symm
  have hin : impressions = .num i := by
    injection hi' with h
    exact h.symm
  obtain ⟨n, hn, _, hnear⟩ := ctrText_nearest env c i hpos h53 hmax
  exact ⟨n, by rw [hctr, hcn, hin, hn], hnear⟩

/-- C11 as stated fails on ties.  With 201 clicks on 20000 impressions the exact
rate is 1.005 and the cell is `1.00%`, while 1.005 rounded half up, the rule of
`toFixed`, is 1.01.  With 1 click on 800 impressions the exact rate is 0.125
and the cell is `0.13%`, while 0.125 rounded half to even is 0.12.  The cell
is the rounding of the double the expression evaluates to, which lies just
below 1.005 in the first row and is 0.125 itself in the second. -/
theorem displayCampaigns_ctr_ties :
    (displayCampaigns plainAdminPlatform
        (.arr [campaignWith 201 20000, campaignWith 1 800])
        panelWithoutSession).1.campaignsTableBody.map CampaignRow.ctr =
        ["1.00%", "0.13%"] ∧
      (201 : ℚ) / 20000 * 100 = 1005 / 1000 ∧
      hundredthsNumeral ⌊(201 : ℚ) / 20000 * 100 * 100 + 1 / 2⌋.toNat ++ "%" = "1.01%" ∧
      (1 : ℚ) / 800 * 100 = 125 / 1000 ∧
      hundredthsNumeral (roundHalfEven ((1 : ℚ) / 800 * 100 * 100)).toNat ++ "%" = "0.12%" := by
  have hcells : (displayCampaigns plainAdminPlatform
      (.arr [campaignWith 201 20000, campaignWith 1 800])
      panelWithoutSession).1.campaignsTableBody.map CampaignRow.ctr =
      [ctrText plainAdminPlatform (.num 201) (.num 20000) ++ "%",
        ctrText plainAdminPlatform (.num 1) (.num 800) ++ "%"] := rfl
  have hup : ⌊(201 : ℚ) / 20000 * 100 * 100 + 1 / 2⌋ = 101 := by
    rw [Int.floor_eq_iff]
    constructor <;> norm_num
  have hfloor : ⌊(1 : ℚ) / 800 * 100 * 100⌋ = 12 := by
    rw [Int.floor_eq_iff]
    constructor <;> norm_num
  have heven : roundHalfEven ((1 : ℚ) / 800 * 100 * 100) = 12 := by
    simp only [roundHalfEven, hfloor]
    norm_num
  refine ⟨?_, by norm_num, ?_, by norm_num, ?_⟩
  · rw [hcells, ctrText_201_20000, ctrText_1_800]
    decide
  · rw [hup]
    decide
  · rw [heven]
    decide

end Admin

end FlaskFrontend
